import Mathlib

/-!
Verification of the card-ordering subsystem of the TaskPro backend
(`src/controllers/cardController.js`): a Kanban board where each card
carries an integer `order` inside its column, and the operations
create / delete / reorder / move maintain a dense 0..N-1 ordering per
column.  The controller functions are embedded as pure functions over an
explicit database state; MongoDB's `updateMany` with a filter becomes a
conditional map over the card list, `findOneAndUpdate` an update of the
first matching element, and thrown errors become `Except` values.
-/

namespace TaskPro

/-- Error taxonomy of `utils/errors`: `BadRequestError`, `NotFoundError`,
`ForbiddenError`. -/
inductive Err where
  | badRequest
  | notFound
  | forbidden
deriving Repr, DecidableEq

/-- A persisted card, following the schema in `models/Card.js`:
title, description, priority, optional due date, column reference, owner
reference and the integer `order`.  Document ids and references are
modelled as naturals; the due date as an abstract epoch value. -/
structure Card where
  id : Nat
  title : String
  description : String
  priority : String
  dueDate : Option Int
  column : Nat
  owner : Nat
  order : Nat
deriving Repr, DecidableEq

/-- Modelled from the spec: the Column model file is absent from the
sources (only the controller requires `../models/Column`); spec §3 gives
a Column identity, an owner (user reference, exactly one) and a title. -/
structure Column where
  id : Nat
  owner : Nat
  title : String
deriving Repr, DecidableEq

/-- The document store: the Column and Card collections. -/
structure DB where
  columns : List Column
  cards : List Card
deriving Repr, DecidableEq

/-- The due-date slot of an incoming request body: absent, `null`/empty,
a string parsing to a date (abstracted by its epoch value), or a
non-empty string that fails to parse. -/
inductive DueIn where
  | absent
  | nullish
  | valid (d : Int)
  | invalid
deriving Repr, DecidableEq

/-- JavaScript truthiness of the due-date slot: any non-empty string is
truthy, `undefined` / `null` / `""` are falsy. -/
def DueIn.truthy : DueIn → Bool
  | .valid _ => true
  | .invalid => true
  | _ => false

/-- JavaScript `String.prototype.trim()` over the character sequence:
drop whitespace from both ends. -/
def strTrim (s : String) : String :=
  ⟨((s.data.dropWhile Char.isWhitespace).reverse.dropWhile
      Char.isWhitespace).reverse⟩

/-- JavaScript `String.prototype.toLowerCase()` over the character
sequence. -/
def strToLower (s : String) : String := ⟨s.data.map Char.toLower⟩

/-- `normalizePriority` from `cardController.js`: `null`/empty gives the
default "low"; otherwise the string is trimmed and lower-cased; the
no-priority synonyms collapse to "low"; "low"/"medium"/"high" stand; any
other value falls back to "low" (the controller comments this fallback
explicitly and throws no error). -/
def normalizePriority : Option String → String
  | none => "low"
  | some p =>
    if p = "" then "low"
    else
      let s := strToLower (strTrim p)
      if s = "without" ∨ s = "without priority" ∨ s = "none" then "low"
      else if s = "low" ∨ s = "medium" ∨ s = "high" then s
      else "low"

/-- `normalizeDueDate` from `cardController.js`: the `deadline` alias is
copied into `dueDate` when the latter is falsy; `null`/empty becomes
`null`; an unparseable date throws `BadRequestError`. -/
def normalizeDueDate (dueDate deadline : DueIn) : Except Err (Option Int) :=
  let dd := if deadline.truthy && !dueDate.truthy then deadline else dueDate
  match dd with
  | .absent => .ok none
  | .nullish => .ok none
  | .valid d => .ok (some d)
  | .invalid => .error .badRequest

/-- Request body of `POST /api/cards` (createCard). -/
structure CreateBody where
  title : Option String
  description : Option String
  column : Option Nat
  priority : Option String
  dueDate : DueIn
  deadline : DueIn
deriving Repr, DecidableEq

/-- Number of cards stored in a column: `Card.countDocuments({ column })`. -/
def colCount (db : DB) (columnId : Nat) : Nat :=
  (db.cards.filter (fun c => c.column == columnId)).length

/-- `createCard`: normalize the due date, require title and column,
look the column up (`NotFound` if missing), check ownership
(`Forbidden`), then persist the card with `order` equal to the current
count of cards in the column.  `newId` stands for the store-generated
document id. -/
def createCard (userId newId : Nat) (body : CreateBody) (db : DB) :
    Except Err (DB × Card) :=
  match normalizeDueDate body.dueDate body.deadline with
  | .error e => .error e
  | .ok due =>
    match body.title, body.column with
    | some t, some columnId =>
      if t = "" then .error .badRequest
      else
        match db.columns.find? (fun c => c.id == columnId) with
        | none => .error .notFound
        | some col =>
          if col.owner ≠ userId then .error .forbidden
          else
            let countInColumn := colCount db columnId
            let card : Card :=
              { id := newId
                title := strTrim t
                description := strTrim (body.description.getD "")
                priority := normalizePriority body.priority
                dueDate := due
                column := columnId
                owner := userId
                order := countInColumn }
            .ok ({ db with cards := db.cards ++ [card] }, card)
    | _, _ => .error .badRequest

/-- `updateMany({column, order: {$gt: pivot}}, {$inc: {order: -1}})`: the
per-card effect of the bulk decrement used by `deleteCard` and by step 1
of `moveCardToColumn`. -/
def decShift (columnId pivot : Nat) (c : Card) : Card :=
  if c.column == columnId && pivot < c.order then
    { c with order := c.order - 1 } else c

/-- `updateMany({column, order: {$gte: pos}}, {$inc: {order: 1}})`: the
per-card effect of the bulk increment used by step 2 of
`moveCardToColumn`. -/
def incShift (columnId pos : Nat) (c : Card) : Card :=
  if c.column == columnId && pos ≤ c.order then
    { c with order := c.order + 1 } else c

/-- `deleteCard`: find the card (`NotFound`), check ownership
(`Forbidden`), delete it, then decrement `order` on every remaining card
of the same column whose order exceeds the deleted card's
(`updateMany({column, order: {$gt}}, {$inc: {order: -1}})`). -/
def deleteCard (userId cardId : Nat) (db : DB) : Except Err DB :=
  match db.cards.find? (fun c => c.id == cardId) with
  | none => .error .notFound
  | some card =>
    if card.owner ≠ userId then .error .forbidden
    else
      let remaining := db.cards.eraseP (fun c => c.id == cardId)
      let shifted := remaining.map (decShift card.column card.order)
      .ok { db with cards := shifted }

/-- Update the first card matching the predicate, as MongoDB's
`findOneAndUpdate` updates a single document. -/
def updateFirst (p : Card → Bool) (f : Card → Card) : List Card → List Card
  | [] => []
  | c :: cs => if p c then f c :: cs else c :: updateFirst p f cs

/-- `updateCardsOrder` (reorder): look up the column (`NotFound`), check
ownership (`Forbidden`), require `cardOrders` to be an array
(`BadRequest`), then for each `{id, order}` pair run
`findOneAndUpdate({_id: id, column: columnId}, {order})` — the filter is
scoped by the column, and only `order` is written. -/
def updateCardsOrder (userId columnId : Nat)
    (cardOrders : Option (List (Nat × Nat))) (db : DB) : Except Err DB :=
  match db.columns.find? (fun c => c.id == columnId) with
  | none => .error .notFound
  | some column =>
    if column.owner ≠ userId then .error .forbidden
    else
      match cardOrders with
      | none => .error .badRequest
      | some pairs =>
        let cards := pairs.foldl (fun cs pr =>
          updateFirst (fun c => c.id == pr.1 && c.column == columnId)
            (fun c => { c with order := pr.2 }) cs) db.cards
        .ok { db with cards := cards }

/-- Request body of `PUT/PATCH /api/cards/:id` (updateCard).
`priorityPresent` models `Object.prototype.hasOwnProperty(body, "priority")`;
`priority` is the value carried under that key (`none` standing for `null`). -/
structure UpdateBody where
  title : Option String
  description : Option String
  priorityPresent : Bool
  priority : Option String
  dueDate : DueIn
  deadline : DueIn
deriving Repr, DecidableEq

/-- The `allowed` field list of `updateCard`. -/
def allowedUpdateFields : List String :=
  ["title", "description", "priority", "labels", "dueDate"]

/-- `updateCard`: normalize the due date (which can throw), find the card
(`NotFound`), check ownership (`Forbidden`), then run the update loop: it
iterates over the `allowed` field names but its body tests
`hasOwnProperty(body, "priority")` on every iteration, so only
`priority` is ever written; finally `card.save()` persists the modified
document. -/
def updateCard (userId cardId : Nat) (body : UpdateBody) (db : DB) :
    Except Err (DB × Card) :=
  match normalizeDueDate body.dueDate body.deadline with
  | .error e => .error e
  | .ok _ =>
    match db.cards.find? (fun c => c.id == cardId) with
    | none => .error .notFound
    | some card =>
      if card.owner ≠ userId then .error .forbidden
      else
        let updated := allowedUpdateFields.foldl
          (fun c _field =>
            if body.priorityPresent then
              { c with priority := normalizePriority body.priority }
            else c)
          card
        .ok ({ db with
                cards := updateFirst (fun c => c.id == cardId)
                  (fun _ => updated) db.cards },
             updated)

/-- Request body of `PATCH /api/cards/:id/move`. -/
structure MoveBody where
  newColumnId : Option Nat
  newPosition : Option Nat
deriving Repr, DecidableEq

/-- `card.save()` in step 3 of `moveCardToColumn`.  Mongoose persists
only the paths marked modified, and assigning a path a value equal to
the in-memory document's current value marks nothing; `card` here is
the document fetched at the start of the handler, so `column` is
written back only when `newColumnId` differs from the fetched card's
column, and `order` only when `newPosition` differs from the fetched
card's order.  The stored document `c` (which the two bulk updates may
already have shifted) keeps its value on every unwritten path; with no
modified path, `save()` issues no write at all, which the identity
update below also models. -/
def saveMoved (card : Card) (newColumnId newPosition : Nat) (c : Card) :
    Card :=
  { c with
    column := if newColumnId ≠ card.column then newColumnId else c.column
    order := if newPosition ≠ card.order then newPosition else c.order }

/-- `moveCardToColumn`: `newPosition` destructures with default `0`;
find the card and check its ownership, find the destination column
(`findById(undefined)` yields `NotFound` too) and check its ownership;
then (1) decrement `order` past the card's old order in the source
column, (2) increment `order` at or past `newPosition` in the
destination column, (3) assign the new column and order on the fetched
document and `save()` it — which writes only the modified paths, see
`saveMoved`.  The JSON response carries the in-memory document, which
reports the assigned column and order regardless of what `save()`
wrote. -/
def moveCardToColumn (userId cardId : Nat) (body : MoveBody) (db : DB) :
    Except Err (DB × Card) :=
  let newPosition := body.newPosition.getD 0
  match db.cards.find? (fun c => c.id == cardId) with
  | none => .error .notFound
  | some card =>
    if card.owner ≠ userId then .error .forbidden
    else
      match body.newColumnId with
      | none => .error .notFound
      | some newColumnId =>
        match db.columns.find? (fun c => c.id == newColumnId) with
        | none => .error .notFound
        | some destinationColumn =>
          if destinationColumn.owner ≠ userId then .error .forbidden
          else
            let sourceColumnId := card.column
            let step1 := db.cards.map (decShift sourceColumnId card.order)
            let step2 := step1.map (incShift newColumnId newPosition)
            let moved := { card with column := newColumnId, order := newPosition }
            let cards := updateFirst (fun c => c.id == cardId)
              (saveMoved card newColumnId newPosition) step2
            .ok ({ db with cards := cards }, moved)

/-- `order` values of the cards of column `C` inside a card list. -/
def colOrders (cards : List Card) (C : Nat) : List Nat :=
  (cards.filter (fun c => c.column == C)).map Card.order

/-- The HTTP layer maps a thrown error to a response and leaves the store
untouched: the state after a call is the returned state on success and
the unchanged pre-state on error. -/
def DB.after (db : DB) : Except Err DB → DB
  | .ok d => d
  | .error _ => db

/-- The `order` values of the cards of one column, in storage order. -/
def ordersList (db : DB) (columnId : Nat) : List Nat :=
  (db.cards.filter (fun c => c.column == columnId)).map Card.order

/-- The dense-ordering invariant for one column: the multiset of `order`
values among the column's cards is exactly {0, ..., count-1}. -/
def denseCol (db : DB) (columnId : Nat) : Prop :=
  (ordersList db columnId : Multiset Nat) =
    Multiset.range (ordersList db columnId).length

instance (db : DB) (columnId : Nat) : Decidable (denseCol db columnId) := by
  unfold denseCol; infer_instance

/-- One ordering operation of the Append/Delete/Move fragment. -/
inductive Op where
  | create (userId newId : Nat) (body : CreateBody)
  | delete (userId cardId : Nat)
  | move (userId cardId : Nat) (body : MoveBody)
deriving Repr, DecidableEq

/-- Run one operation against the store, keeping only the state. -/
def applyOp : Op → DB → Except Err DB
  | .create userId newId body, db => (createCard userId newId body db).map Prod.fst
  | .delete userId cardId, db => deleteCard userId cardId db
  | .move userId cardId body, db => (moveCardToColumn userId cardId body db).map Prod.fst

/-- The side condition on a Move: its target position is at most the
number of cards of the destination column, counting one less when the
card already sits in that column; and a same-column move must not
target the card's own current position (there `save()` writes nothing
and the step-2 increment survives).  Append and Delete need no side
condition. -/
def moveGuard : Op → DB → Prop
  | .move _ cardId body, db =>
    ∀ card ∈ db.cards.find? (fun c => c.id == cardId),
      ∀ newColumnId ∈ body.newColumnId,
        body.newPosition.getD 0 +
            (if card.column = newColumnId then 1 else 0) ≤
          colCount db newColumnId ∧
        (card.column = newColumnId →
          body.newPosition.getD 0 ≠ card.order)
  | _, _ => True

/-- A run of operations, each succeeding and each Move in range. -/
inductive Steps : DB → List Op → DB → Prop where
  | nil (db : DB) : Steps db [] db
  | cons {db db' db'' : DB} {op : Op} {ops : List Op}
      (hok : applyOp op db = .ok db') (hguard : moveGuard op db)
      (hrest : Steps db' ops db'') : Steps db (op :: ops) db''

/-- A minimal card payload targeting one column, used to exercise
repeated appends. -/
def simpleBody (columnId : Nat) : CreateBody :=
  { title := some "task", description := none, column := some columnId,
    priority := none, dueDate := .absent, deadline := .absent }

/-- Run one `createCard` per id from `ids` against the same column,
keeping the state (an errored call leaves the store untouched, as the
HTTP layer does). -/
def appendMany (userId columnId : Nat) (ids : List Nat) (db : DB) : DB :=
  ids.foldl (fun d i =>
    match createCard userId i (simpleBody columnId) d with
    | .ok r => r.1
    | .error _ => d) db

/-- Concrete fixture: a card owned by user 1. -/
def mkCard (i col ord : Nat) : Card :=
  { id := i, title := "t", description := "", priority := "low",
    dueDate := none, column := col, owner := 1, order := ord }

/-- Concrete fixture: column 10 owned by user 1. -/
def colA : Column := { id := 10, owner := 1, title := "A" }

/-- Concrete fixture: column 20 owned by user 1. -/
def colB : Column := { id := 20, owner := 1, title := "B" }

/-- Concrete fixture: column 30 owned by user 2. -/
def colC : Column := { id := 30, owner := 2, title := "C" }

/-- Concrete fixture: two columns of user 1, five cards in column 10 and
three in column 20, all dense. -/
def dbFix : DB :=
  { columns := [colA, colB],
    cards := [mkCard 1 10 0, mkCard 2 10 1, mkCard 3 10 2, mkCard 4 10 3,
              mkCard 5 10 4, mkCard 6 20 0, mkCard 7 20 1, mkCard 8 20 2] }

/-- Concrete fixture: `dbFix` after the out-of-range move of card 6 to
position 9 of column 10 — column 10 keeps a gap (orders 0..4 and 9). -/
def dbC1after : DB :=
  { columns := [colA, colB],
    cards := [mkCard 1 10 0, mkCard 2 10 1, mkCard 3 10 2, mkCard 4 10 3,
              mkCard 5 10 4, mkCard 6 10 9, mkCard 7 20 0, mkCard 8 20 1] }

/-- Concrete fixture: `dbFix` after deleting card 3 (order 2 of
column 10). -/
def dbDel3 : DB :=
  { columns := [colA, colB],
    cards := [mkCard 1 10 0, mkCard 2 10 1, mkCard 4 10 2, mkCard 5 10 3,
              mkCard 6 20 0, mkCard 7 20 1, mkCard 8 20 2] }

/-- The card persisted by `createCard` for `simpleBody`. -/
def taskCard (userId i columnId ord : Nat) : Card :=
  { id := i, title := "task", description := "", priority := "low",
    dueDate := none, column := columnId, owner := userId, order := ord }

/-- Concrete fixture: the two columns of user 1 with no cards. -/
def dbEmpty : DB := { columns := [colA, colB], cards := [] }

/-- Concrete fixture: `dbFix` after appending a card to column 20. -/
def dbC2after : DB :=
  { columns := [colA, colB], cards := dbFix.cards ++ [taskCard 1 99 20 3] }

/-- Concrete fixture: `dbFix` after moving card 3 to column 20 at
position 1. -/
def dbC4w : DB :=
  { columns := [colA, colB],
    cards := [mkCard 1 10 0, mkCard 2 10 1, mkCard 3 20 1, mkCard 4 10 2,
              mkCard 5 10 3, mkCard 6 20 0, mkCard 7 20 2, mkCard 8 20 3] }

/-- Concrete fixture: `dbFix` after moving card 3 to column 20 at
position 3 (append at end). -/
def dbC4w2 : DB :=
  { columns := [colA, colB],
    cards := [mkCard 1 10 0, mkCard 2 10 1, mkCard 3 20 3, mkCard 4 10 2,
              mkCard 5 10 3, mkCard 6 20 0, mkCard 7 20 1, mkCard 8 20 2] }

/-- Concrete fixture: `dbFix` after moving card 6 *within* column 20 to
position 3 — card 7 is shifted down and the column ends non-dense. -/
def dbC4cex : DB :=
  { columns := [colA, colB],
    cards := [mkCard 1 10 0, mkCard 2 10 1, mkCard 3 10 2, mkCard 4 10 3,
              mkCard 5 10 4, mkCard 6 20 3, mkCard 7 20 0, mkCard 8 20 1] }

/-- Concrete fixture: `dbFix` after moving card 3 to column 20 with the
body's `newPosition` omitted (prepend at 0). -/
def dbC10w : DB :=
  { columns := [colA, colB],
    cards := [mkCard 1 10 0, mkCard 2 10 1, mkCard 3 20 0, mkCard 4 10 2,
              mkCard 5 10 3, mkCard 6 20 1, mkCard 7 20 2, mkCard 8 20 3] }

/-- Concrete fixture: `dbFix` after moving card 6 *within* column 20 to
its own current position 0.  Step 1 shifts cards 7 and 8 down, step 2
shifts cards 6, 7 and 8 up, and `save()` writes nothing (both assigned
paths equal the fetched document's values), so column 20 ends with
orders {1,1,2}: a duplicate and a gap. -/
def dbMoveNoOp : DB :=
  { columns := [colA, colB],
    cards := [mkCard 1 10 0, mkCard 2 10 1, mkCard 3 10 2, mkCard 4 10 3,
              mkCard 5 10 4, mkCard 6 20 1, mkCard 7 20 1, mkCard 8 20 2] }

/-- Concrete fixture: a card owned by user 2 in user 2's column 30. -/
def card9 : Card :=
  { id := 9, title := "t", description := "", priority := "low",
    dueDate := none, column := 30, owner := 2, order := 0 }

/-- Concrete fixture: `dbFix` extended with user 2's column 30 and
card 9. -/
def dbC7 : DB :=
  { columns := [colA, colB, colC], cards := dbFix.cards ++ [card9] }

/-- Concrete fixture: an update body supplying a new title, description
and priority. -/
def bodyC9 : UpdateBody :=
  { title := some "XX", description := some "YY", priorityPresent := true,
    priority := some " Medium ", dueDate := .absent, deadline := .absent }

/-- Concrete fixture: card 1 after `updateCard` with `bodyC9` — only the
priority changed. -/
def cardC9 : Card :=
  { id := 1, title := "t", description := "", priority := "medium",
    dueDate := none, column := 10, owner := 1, order := 0 }

/-- Concrete fixture: `dbFix` after `updateCard` of card 1 with
`bodyC9`. -/
def dbC9 : DB :=
  { columns := [colA, colB],
    cards := [cardC9, mkCard 2 10 1, mkCard 3 10 2, mkCard 4 10 3,
              mkCard 5 10 4, mkCard 6 20 0, mkCard 7 20 1, mkCard 8 20 2] }

instance instDecEqExcept {ε α : Type} [DecidableEq ε] [DecidableEq α] :
    DecidableEq (Except ε α) := fun a b =>
  match a, b with
  | .error e₁, .error e₂ =>
    if h : e₁ = e₂ then isTrue (by rw [h])
    else isFalse (fun hh => h (Except.error.inj hh))
  | .error _, .ok _ => isFalse (fun hh => Except.noConfusion hh)
  | .ok _, .error _ => isFalse (fun hh => Except.noConfusion hh)
  | .ok a₁, .ok a₂ =>
    if h : a₁ = a₂ then isTrue (by rw [h])
    else isFalse (fun hh => h (Except.ok.inj hh))

/-! ### Generic list and multiset lemmas -/

theorem find?_split {α : Type} {p : α → Bool} {l : List α} {a : α}
    (h : l.find? p = some a) :
    ∃ l₁ l₂, l = l₁ ++ a :: l₂ ∧ (∀ b ∈ l₁, p b = false) ∧
      l.eraseP p = l₁ ++ l₂ := by
  induction l with
  | nil => simp at h
  | cons c cs ih =>
    by_cases hp : p c
    · rw [List.find?_cons_of_pos _ hp] at h
      obtain rfl : c = a := by injection h
      exact ⟨[], cs, by simp, by simp, by simp [List.eraseP_cons, hp]⟩
    · rw [List.find?_cons_of_neg _ hp] at h
      obtain ⟨l₁, l₂, h1, h2, h3⟩ := ih h
      refine ⟨c :: l₁, l₂, by simp [h1], ?_, ?_⟩
      · intro b hb
        rcases List.mem_cons.mp hb with rfl | hb
        · exact Bool.of_not_eq_true hp
        · exact h2 b hb
      · simp [List.eraseP_cons, Bool.of_not_eq_true hp, h3]

theorem find?_eq_true {α : Type} {p : α → Bool} {l : List α} {a : α}
    (h : l.find? p = some a) : p a = true :=
  List.find?_some h

theorem updateFirst_append {p : Card → Bool} {f : Card → Card}
    (l₁ l₂ : List Card) (a : Card)
    (h1 : ∀ b ∈ l₁, p b = false) (ha : p a = true) :
    updateFirst p f (l₁ ++ a :: l₂) = l₁ ++ f a :: l₂ := by
  induction l₁ with
  | nil => simp [updateFirst, ha]
  | cons c cs ih =>
    have hc : p c = false := h1 c (by simp)
    show updateFirst p f (c :: (cs ++ a :: l₂)) = c :: (cs ++ f a :: l₂)
    simp only [updateFirst, hc, Bool.false_eq_true, if_false]
    exact congrArg (c :: ·) (ih (fun b hb => h1 b (by simp [hb])))

theorem updateFirst_of_none {p : Card → Bool} {f : Card → Card}
    {l : List Card} (h : ∀ b ∈ l, p b = false) :
    updateFirst p f l = l := by
  induction l with
  | nil => rfl
  | cons c cs ih =>
    have hc : p c = false := h c (by simp)
    simp only [updateFirst, hc, Bool.false_eq_true, if_false]
    rw [ih (fun b hb => h b (by simp [hb]))]

theorem updateFirst_length {p : Card → Bool} {f : Card → Card}
    (l : List Card) : (updateFirst p f l).length = l.length := by
  induction l with
  | nil => rfl
  | cons c cs ih =>
    by_cases hc : p c <;> simp [updateFirst, hc, ih]

theorem updateFirst_getElem?_of_neg {p : Card → Bool} {f : Card → Card}
    {l : List Card} {i : Nat} {c : Card}
    (hc : l[i]? = some c) (hp : p c = false) :
    (updateFirst p f l)[i]? = some c := by
  induction l generalizing i with
  | nil => simp at hc
  | cons a l ih =>
    by_cases ha : p a
    · match i with
      | 0 =>
        simp only [List.getElem?_cons_zero, Option.some.injEq] at hc
        subst hc
        rw [ha] at hp
        exact absurd hp (by simp)
      | i + 1 =>
        simp only [List.getElem?_cons_succ] at hc
        simp [updateFirst, ha, hc]
    · have ha' : p a = false := Bool.of_not_eq_true ha
      match i with
      | 0 =>
        simp only [List.getElem?_cons_zero, Option.some.injEq] at hc
        subst hc
        simp [updateFirst, ha']
      | i + 1 =>
        simp only [List.getElem?_cons_succ] at hc
        simp [updateFirst, ha', ih hc]

theorem updateFirst_maps_split {l₁ l₂ : List Card} {card : Card}
    {cardId : Nat} (f : Card → Card)
    (hno : ∀ b ∈ l₁, (b.id == cardId) = false)
    (hpid : (card.id == cardId) = true)
    (g1 g2 : Card → Card)
    (hid1 : ∀ c, (g1 c).id = c.id) (hid2 : ∀ c, (g2 c).id = c.id) :
    updateFirst (fun c => c.id == cardId) f
      (((l₁ ++ card :: l₂).map g1).map g2) =
      (l₁.map g1).map g2 ++ f (g2 (g1 card)) :: (l₂.map g1).map g2 := by
  rw [List.map_append, List.map_cons, List.map_append, List.map_cons]
  refine updateFirst_append _ _ _ ?_ ?_
  · intro b hb
    obtain ⟨b1, hb1, rfl⟩ := List.mem_map.mp hb
    obtain ⟨b0, hb0, rfl⟩ := List.mem_map.mp hb1
    rw [show ((g2 (g1 b0)).id == cardId) = (b0.id == cardId) by
      rw [hid2, hid1]]
    exact hno b0 hb0
  · rw [show ((g2 (g1 card)).id == cardId) = (card.id == cardId) by
      rw [hid2, hid1]]
    exact hpid

theorem filter_map_of_pres {α : Type} {f : α → α} {q : α → Bool}
    (hq : ∀ c, q (f c) = q c) (l : List α) :
    (l.map f).filter q = (l.filter q).map f := by
  rw [List.filter_map]
  congr 1
  exact List.filter_congr (fun c _ => hq c)

theorem map_filter_congr {α β : Type} {q : α → Bool} {f g : α → β}
    (h : ∀ c, q c = true → f c = g c) (l : List α) :
    (l.filter q).map f = (l.filter q).map g :=
  List.map_congr_left (fun a ha => h a (List.of_mem_filter ha))

theorem decShift_column (columnId pivot : Nat) (c : Card) :
    (decShift columnId pivot c).column = c.column := by
  unfold decShift
  by_cases hb : (c.column == columnId && decide (pivot < c.order)) = true <;>
    simp [hb]

theorem decShift_id (columnId pivot : Nat) (c : Card) :
    (decShift columnId pivot c).id = c.id := by
  unfold decShift
  by_cases hb : (c.column == columnId && decide (pivot < c.order)) = true <;>
    simp [hb]

theorem decShift_order_of_eq {columnId : Nat} (pivot : Nat) {c : Card}
    (hcol : c.column = columnId) :
    (decShift columnId pivot c).order =
      if pivot < c.order then c.order - 1 else c.order := by
  unfold decShift
  by_cases hlt : pivot < c.order <;> simp [hcol, hlt]

theorem decShift_of_ne {columnId : Nat} (pivot : Nat) {c : Card}
    (hcol : c.column ≠ columnId) : decShift columnId pivot c = c := by
  unfold decShift
  simp [hcol]

theorem incShift_column (columnId pos : Nat) (c : Card) :
    (incShift columnId pos c).column = c.column := by
  unfold incShift
  by_cases hb : (c.column == columnId && decide (pos ≤ c.order)) = true <;>
    simp [hb]

theorem incShift_id (columnId pos : Nat) (c : Card) :
    (incShift columnId pos c).id = c.id := by
  unfold incShift
  by_cases hb : (c.column == columnId && decide (pos ≤ c.order)) = true <;>
    simp [hb]

theorem incShift_order_of_eq {columnId : Nat} (pos : Nat) {c : Card}
    (hcol : c.column = columnId) :
    (incShift columnId pos c).order =
      if pos ≤ c.order then c.order + 1 else c.order := by
  unfold incShift
  by_cases hle : pos ≤ c.order <;> simp [hcol, hle]

theorem incShift_of_ne {columnId : Nat} (pos : Nat) {c : Card}
    (hcol : c.column ≠ columnId) : incShift columnId pos c = c := by
  unfold incShift
  simp [hcol]

/-- The stored state of the moved card after the two bulk shifts and
the modified-paths `save()`: for a same-column move onto the card's own
position nothing is written and the step-2 increment survives; in every
other case the stored card carries the new column and
`order = newPosition`. -/
theorem saveMoved_stored (card : Card) (newColumnId newPosition : Nat) :
    saveMoved card newColumnId newPosition
      (incShift newColumnId newPosition
        (decShift card.column card.order card)) =
    if card.column = newColumnId ∧ newPosition = card.order then
      { card with order := card.order + 1 }
    else { card with column := newColumnId, order := newPosition } := by
  have hdec : decShift card.column card.order card = card := by
    unfold decShift
    simp
  rw [hdec]
  by_cases hsame : card.column = newColumnId
  · subst hsame
    by_cases hpk : newPosition = card.order
    · subst hpk
      rw [if_pos ⟨rfl, rfl⟩]
      unfold saveMoved incShift
      simp
    · rw [if_neg (by tauto)]
      unfold saveMoved incShift
      by_cases hple : newPosition ≤ card.order <;> simp [hpk, hple]
  · rw [if_neg (by tauto)]
    have h1 : newColumnId ≠ card.column := fun hh => hsame hh.symm
    rw [incShift_of_ne newPosition hsame]
    unfold saveMoved
    by_cases hpk : newPosition = card.order <;> simp [h1, hpk]

/-- Closing a gap: erasing `k` from `{0, ..., n-1}` and shifting every
value above `k` down by one yields `{0, ..., n-2}`. -/
theorem dec_range (n k : Nat) (hk : k < n) :
    ((Multiset.range n).erase k).map (fun x => if k < x then x - 1 else x) =
      Multiset.range (n - 1) := by
  induction n with
  | zero => exact absurd hk (by omega)
  | succ n ih =>
    rw [Multiset.range_succ]
    rcases Nat.lt_succ_iff_lt_or_eq.mp hk with h | rfl
    · rw [Multiset.erase_cons_tail _ (by omega : n ≠ k), Multiset.map_cons,
        ih h, if_pos h, Nat.succ_sub_one]
      conv_rhs => rw [show n = (n - 1) + 1 by omega, Multiset.range_succ]
    · rw [Multiset.erase_cons_head, Nat.succ_sub_one]
      refine Eq.trans (Multiset.map_congr rfl ?_) (Multiset.map_id' _)
      intro x hx
      rw [Multiset.mem_range] at hx
      simp [Nat.not_lt.mpr (Nat.le_of_lt hx)]

/-- Making room: shifting every value of `{0, ..., n-1}` at or above `p`
up by one yields `{0, ..., n}` with `p` taken out. -/
theorem inc_range (n p : Nat) (hp : p ≤ n) :
    (Multiset.range n).map (fun x => if p ≤ x then x + 1 else x) =
      (Multiset.range (n + 1)).erase p := by
  induction n with
  | zero =>
    obtain rfl : p = 0 := Nat.le_zero.mp hp
    simp [Multiset.range_succ]
  | succ n ih =>
    rw [Multiset.range_succ, Multiset.map_cons]
    rcases Nat.lt_succ_iff_lt_or_eq.mp (Nat.lt_succ_of_le hp) with h | rfl
    · have hpn : p ≤ n := Nat.lt_succ_iff.mp h
      rw [if_pos hpn, ih hpn]
      rw [show Multiset.range (n + 1 + 1) = (n + 1) ::ₘ Multiset.range (n + 1) from
        Multiset.range_succ (n + 1)]
      rw [Multiset.erase_cons_tail _ (by omega : (n : ℕ) + 1 ≠ p)]
    · rw [if_neg (by omega)]
      rw [show Multiset.range (n + 1 + 1) = (n + 1) ::ₘ Multiset.range (n + 1) from
        Multiset.range_succ (n + 1)]
      rw [Multiset.erase_cons_head]
      rw [show Multiset.range (n + 1) = n ::ₘ Multiset.range n from Multiset.range_succ n]
      refine congrArg (n ::ₘ ·) ?_
      refine Eq.trans (Multiset.map_congr rfl ?_) (Multiset.map_id' _)
      intro x hx
      rw [Multiset.mem_range] at hx
      simp [Nat.not_le.mpr (by omega : x < n + 1)]

/-! ### Order lists of a column -/

theorem ordersList_def (db : DB) (C : Nat) :
    ordersList db C = colOrders db.cards C := rfl

theorem colOrders_append (l₁ l₂ : List Card) (C : Nat) :
    colOrders (l₁ ++ l₂) C = colOrders l₁ C ++ colOrders l₂ C := by
  simp [colOrders, List.filter_append]

theorem colOrders_cons (c : Card) (l : List Card) (C : Nat) :
    colOrders (c :: l) C =
      (if c.column == C then [c.order] else []) ++ colOrders l C := by
  by_cases hc : c.column == C <;> simp [colOrders, List.filter_cons, hc]

theorem mem_colOrders {c : Card} {l : List Card} {C : Nat}
    (hc : c ∈ l) (hcol : c.column = C) : c.order ∈ colOrders l C := by
  exact List.mem_map_of_mem _ (List.mem_filter.mpr ⟨hc, by simp [hcol]⟩)

theorem colOrders_map_shift {f : Card → Card} {g : Nat → Nat} {C : Nat}
    (hcol : ∀ c, (f c).column = c.column)
    (hord : ∀ c, c.column = C → (f c).order = g c.order)
    (l : List Card) :
    colOrders (l.map f) C = (colOrders l C).map g := by
  unfold colOrders
  rw [filter_map_of_pres (fun c => by rw [hcol]) l, List.map_map]
  rw [@map_filter_congr Card Nat (fun c => c.column == C)
    (Card.order ∘ f) (g ∘ Card.order)
    (fun c hc => by
      have : c.column = C := by simpa using hc
      simpa using hord c this) l]
  rw [← List.map_map]

theorem colCount_eq_length (db : DB) (C : Nat) :
    colCount db C = (ordersList db C).length := by
  simp [colCount, ordersList, colOrders]

/-! ### Shape of each successful operation -/

theorem createCard_ok_elim {userId newId : Nat} {body : CreateBody}
    {db db' : DB} {card : Card}
    (h : createCard userId newId body db = .ok (db', card)) :
    ∃ t columnId col due,
      body.title = some t ∧ body.column = some columnId ∧ t ≠ "" ∧
      normalizeDueDate body.dueDate body.deadline = .ok due ∧
      db.columns.find? (fun c => c.id == columnId) = some col ∧
      col.owner = userId ∧
      card = { id := newId, title := strTrim t,
               description := strTrim (body.description.getD ""),
               priority := normalizePriority body.priority,
               dueDate := due, column := columnId, owner := userId,
               order := colCount db columnId } ∧
      db' = { db with cards := db.cards ++ [card] } := by
  unfold createCard at h
  split at h
  · exact absurd h (by simp)
  next due hdue =>
    split at h
    next t columnId htitle hcolumn =>
      split at h
      · exact absurd h (by simp)
      next ht =>
        split at h
        · exact absurd h (by simp)
        next col hfind =>
          split at h
          · exact absurd h (by simp)
          next hown =>
            obtain ⟨h1, h2⟩ := Prod.mk.injEq .. ▸ Except.ok.injEq .. ▸ h
            refine ⟨t, columnId, col, due, htitle, hcolumn, ht, hdue, hfind,
              by omega, h2.symm, ?_⟩
            rw [← h1, ← h2]
    · exact absurd h (by simp)

theorem deleteCard_ok_elim {userId cardId : Nat} {db db' : DB}
    (h : deleteCard userId cardId db = .ok db') :
    ∃ card, db.cards.find? (fun c => c.id == cardId) = some card ∧
      card.owner = userId ∧
      db'.columns = db.columns ∧
      db'.cards = (db.cards.eraseP (fun c => c.id == cardId)).map
        (decShift card.column card.order) := by
  unfold deleteCard at h
  split at h
  · exact absurd h (by simp)
  next card hfind =>
    split at h
    · exact absurd h (by simp)
    next hown =>
      exact ⟨card, hfind, by omega, by injection h with h'; rw [← h'],
        by injection h with h'; rw [← h']⟩

theorem updateCardsOrder_ok_elim {userId columnId : Nat}
    {cardOrders : Option (List (Nat × Nat))} {db db' : DB}
    (h : updateCardsOrder userId columnId cardOrders db = .ok db') :
    ∃ column pairs,
      db.columns.find? (fun c => c.id == columnId) = some column ∧
      column.owner = userId ∧ cardOrders = some pairs ∧
      db'.columns = db.columns ∧
      db'.cards = pairs.foldl (fun cs pr =>
        updateFirst (fun c => c.id == pr.1 && c.column == columnId)
          (fun c => { c with order := pr.2 }) cs) db.cards := by
  cases cardOrders with
  | none =>
    unfold updateCardsOrder at h
    split at h
    · exact absurd h (by simp)
    next column hfind =>
      split at h
      · exact absurd h (by simp)
      · exact absurd h (by simp)
  | some pairs =>
    unfold updateCardsOrder at h
    split at h
    · exact absurd h (by simp)
    next column hfind =>
      split at h
      · exact absurd h (by simp)
      next hown =>
        exact ⟨column, pairs, hfind, by omega, rfl,
          by injection h with h'; rw [← h'],
          by injection h with h'; rw [← h']⟩

theorem moveCardToColumn_ok_elim {userId cardId : Nat} {body : MoveBody}
    {db db' : DB} {moved : Card}
    (h : moveCardToColumn userId cardId body db = .ok (db', moved)) :
    ∃ card newColumnId destinationColumn,
      db.cards.find? (fun c => c.id == cardId) = some card ∧
      card.owner = userId ∧
      body.newColumnId = some newColumnId ∧
      db.columns.find? (fun c => c.id == newColumnId) = some destinationColumn ∧
      destinationColumn.owner = userId ∧
      moved = { card with column := newColumnId,
                          order := body.newPosition.getD 0 } ∧
      db'.columns = db.columns ∧
      db'.cards = updateFirst (fun c => c.id == cardId)
        (saveMoved card newColumnId (body.newPosition.getD 0))
        ((db.cards.map (decShift card.column card.order)).map
          (incShift newColumnId (body.newPosition.getD 0))) := by
  unfold moveCardToColumn at h
  split at h
  · exact absurd h (by simp)
  next card hfind =>
    split at h
    · exact absurd h (by simp)
    next hown =>
      split at h
      · exact absurd h (by simp)
      next newColumnId hbody =>
        split at h
        · exact absurd h (by simp)
        next destinationColumn hcol =>
          split at h
          · exact absurd h (by simp)
          next hdown =>
            obtain ⟨h1, h2⟩ := Prod.mk.injEq .. ▸ Except.ok.injEq .. ▸ h
            exact ⟨card, newColumnId, destinationColumn, hfind, by omega,
              hbody, hcol, by omega, h2.symm,
              by rw [← h1], by rw [← h1]⟩

theorem updateCard_ok_elim {userId cardId : Nat} {body : UpdateBody}
    {db db' : DB} {card' : Card}
    (h : updateCard userId cardId body db = .ok (db', card')) :
    ∃ card due,
      normalizeDueDate body.dueDate body.deadline = .ok due ∧
      db.cards.find? (fun c => c.id == cardId) = some card ∧
      card.owner = userId ∧
      card' = (if body.priorityPresent then
        { card with priority := normalizePriority body.priority } else card) ∧
      db'.columns = db.columns ∧
      db'.cards = updateFirst (fun c => c.id == cardId)
        (fun _ => card') db.cards := by
  unfold updateCard at h
  split at h
  · exact absurd h (by simp)
  next due hdue =>
    split at h
    · exact absurd h (by simp)
    next card hfind =>
      split at h
      · exact absurd h (by simp)
      next hown =>
        obtain ⟨h1, h2⟩ := Prod.mk.injEq .. ▸ Except.ok.injEq .. ▸ h
        refine ⟨card, due, hdue, hfind, by omega, ?_, by rw [← h1],
          by rw [← h1, ← h2]⟩
        rw [← h2]
        show allowedUpdateFields.foldl _ card = _
        by_cases hpp : body.priorityPresent <;>
          simp [allowedUpdateFields, hpp]

/-! ### Density preservation -/

theorem coe_colOrders_split {l₁ l₂ : List Card} {card : Card} {C : Nat}
    (hcc : card.column = C) :
    (colOrders (l₁ ++ card :: l₂) C : Multiset Nat) =
      card.order ::ₘ (colOrders (l₁ ++ l₂) C : Multiset Nat) := by
  rw [colOrders_append, colOrders_cons, if_pos (by simp [hcc]),
    colOrders_append]
  show ((colOrders l₁ C ++ card.order :: colOrders l₂ C : List Nat) :
      Multiset Nat) = _
  rw [Multiset.coe_eq_coe.mpr List.perm_middle, ← Multiset.cons_coe]

theorem createCard_dense {userId newId : Nat} {body : CreateBody}
    {db db' : DB} {card : Card} {C : Nat}
    (h : createCard userId newId body db = .ok (db', card))
    (hd : denseCol db C) : denseCol db' C := by
  obtain ⟨t, columnId, col, due, _, _, _, _, _, _, hcard, hdb'⟩ :=
    createCard_ok_elim h
  have hcards : db'.cards = db.cards ++ [card] := by rw [hdb']
  have hcardcol : card.column = columnId := by rw [hcard]
  have hd' : (ordersList db C : Multiset Nat) =
      Multiset.range ((ordersList db C).length) := hd
  by_cases hcc : columnId = C
  · subst hcc
    have hL : ordersList db' columnId =
        ordersList db columnId ++ [card.order] := by
      rw [ordersList_def, hcards, colOrders_append, colOrders_cons,
        if_pos (by simp [hcardcol])]
      simp [ordersList_def, colOrders]
    have horder : card.order = (ordersList db columnId).length := by
      rw [hcard]; exact colCount_eq_length db columnId
    have hM : (ordersList db' columnId : Multiset Nat) =
        Multiset.range ((ordersList db columnId).length + 1) := by
      rw [hL]
      rw [show ((ordersList db columnId ++ [card.order] : List Nat) :
          Multiset Nat) =
        card.order ::ₘ (ordersList db columnId : Multiset Nat) by
        rw [← Multiset.coe_add]
        rw [show ((([card.order] : List Nat)) : Multiset Nat) =
          ({card.order} : Multiset Nat) from rfl]
        rw [add_comm, Multiset.singleton_add]]
      rw [hd', horder, Multiset.range_succ]
    show (ordersList db' columnId : Multiset Nat) =
      Multiset.range ((ordersList db' columnId).length)
    have hlen : (ordersList db' columnId).length =
        (ordersList db columnId).length + 1 := by
      have := congrArg Multiset.card hM
      simpa [Multiset.coe_card, Multiset.card_range] using this
    rw [hM, hlen]
  · have : ordersList db' C = ordersList db C := by
      rw [ordersList_def, hcards, colOrders_append, colOrders_cons,
        if_neg (by simp [hcardcol, hcc])]
      simp [ordersList_def, colOrders]
    show (ordersList db' C : Multiset Nat) =
      Multiset.range ((ordersList db' C).length)
    rw [this]
    exact hd'

theorem deleteCard_dense {userId cardId : Nat} {db db' : DB} {C : Nat}
    (h : deleteCard userId cardId db = .ok db') (hd : denseCol db C) :
    denseCol db' C := by
  obtain ⟨card, hfind, hown, hcols, hcards0⟩ := deleteCard_ok_elim h
  obtain ⟨l₁, l₂, hsplit, hno, herase⟩ := find?_split hfind
  have hcards : db'.cards =
      ((l₁ ++ l₂).map (decShift card.column card.order)) := by
    rw [hcards0, herase]
  have hd' : (ordersList db C : Multiset Nat) =
      Multiset.range ((ordersList db C).length) := hd
  by_cases hcc : card.column = C
  · have hg : ordersList db' C = (colOrders (l₁ ++ l₂) C).map
        (fun o => if card.order < o then o - 1 else o) := by
      rw [ordersList_def, hcards]
      refine colOrders_map_shift (decShift_column _ _) ?_ _
      intro c hcCol
      rw [decShift_order_of_eq card.order (by rw [hcCol, hcc])]
    have hsplitM : (colOrders db.cards C : Multiset Nat) =
        card.order ::ₘ (colOrders (l₁ ++ l₂) C : Multiset Nat) := by
      rw [hsplit]; exact coe_colOrders_split hcc
    have hk : card.order < (ordersList db C).length := by
      have hmem : card.order ∈ (ordersList db C : Multiset Nat) := by
        rw [ordersList_def]
        exact Multiset.mem_coe.mpr (mem_colOrders
          (by rw [hsplit]; exact List.mem_append_right _ (List.mem_cons_self _ _))
          hcc)
      rw [hd'] at hmem
      exact Multiset.mem_range.mp hmem
    have herased : (colOrders (l₁ ++ l₂) C : Multiset Nat) =
        (Multiset.range ((ordersList db C).length)).erase card.order := by
      have hEq : card.order ::ₘ (colOrders (l₁ ++ l₂) C : Multiset Nat) =
          Multiset.range ((ordersList db C).length) := by
        rw [← hsplitM, ← ordersList_def]; exact hd'
      have := congrArg (fun s => Multiset.erase s card.order) hEq
      simpa [Multiset.erase_cons_head] using this
    have hM : (ordersList db' C : Multiset Nat) =
        Multiset.range ((ordersList db C).length - 1) := by
      rw [hg, ← Multiset.map_coe, herased,
        dec_range ((ordersList db C).length) card.order hk]
    have hlen : (ordersList db' C).length = (ordersList db C).length - 1 := by
      have := congrArg Multiset.card hM
      simpa [Multiset.coe_card, Multiset.card_range] using this
    show (ordersList db' C : Multiset Nat) =
      Multiset.range ((ordersList db' C).length)
    rw [hM, hlen]
  · have hunch : ordersList db' C = ordersList db C := by
      rw [ordersList_def, hcards]
      rw [@colOrders_map_shift (decShift card.column card.order) id C
        (decShift_column _ _) ?_ _]
      · rw [List.map_id, ordersList_def, hsplit, colOrders_append,
          colOrders_append, colOrders_cons,
          if_neg (by simp [hcc])]
        simp
      · intro c hcCol
        rw [decShift_of_ne card.order (by rw [hcCol]; omega)]
        rfl
    show (ordersList db' C : Multiset Nat) =
      Multiset.range ((ordersList db' C).length)
    rw [hunch]
    exact hd'

theorem coe_middle {α : Type} (A B : List α) (k : α) :
    ((A ++ k :: B : List α) : Multiset α) =
      k ::ₘ ((A ++ B : List α) : Multiset α) := by
  rw [Multiset.coe_eq_coe.mpr List.perm_middle, ← Multiset.cons_coe]

theorem colOrders_middle_out {l₁ l₂ : List Card} {card : Card} {C : Nat}
    (hcc : card.column ≠ C) :
    colOrders (l₁ ++ card :: l₂) C = colOrders (l₁ ++ l₂) C := by
  rw [colOrders_append, colOrders_cons, if_neg (by simp [hcc]),
    colOrders_append]
  simp

theorem colOrders_two_maps {g1 g2 : Card → Card} {f1 f2 : Nat → Nat} {C : Nat}
    (h1col : ∀ c, (g1 c).column = c.column)
    (h2col : ∀ c, (g2 c).column = c.column)
    (h1ord : ∀ c : Card, c.column = C → (g1 c).order = f1 c.order)
    (h2ord : ∀ c : Card, c.column = C → (g2 c).order = f2 c.order)
    (l : List Card) :
    colOrders ((l.map g1).map g2) C = ((colOrders l C).map f1).map f2 := by
  rw [colOrders_map_shift h2col h2ord, colOrders_map_shift h1col h1ord]

theorem coe_colOrders_erase {l₁ l₂ : List Card} {card : Card} {C : Nat}
    {db : DB}
    (hsplit : db.cards = l₁ ++ card :: l₂) (hcc : card.column = C)
    (hd' : (ordersList db C : Multiset Nat) =
      Multiset.range ((ordersList db C).length)) :
    card.order < (ordersList db C).length ∧
    (colOrders (l₁ ++ l₂) C : Multiset Nat) =
      (Multiset.range ((ordersList db C).length)).erase card.order := by
  have hsplitM : (colOrders db.cards C : Multiset Nat) =
      card.order ::ₘ (colOrders (l₁ ++ l₂) C : Multiset Nat) := by
    rw [hsplit]; exact coe_colOrders_split hcc
  have hk : card.order < (ordersList db C).length := by
    have hmem : card.order ∈ (ordersList db C : Multiset Nat) := by
      rw [ordersList_def]
      exact Multiset.mem_coe.mpr (mem_colOrders
        (by rw [hsplit]
            exact List.mem_append_right _ (List.mem_cons_self _ _)) hcc)
    rw [hd'] at hmem
    exact Multiset.mem_range.mp hmem
  refine ⟨hk, ?_⟩
  have hEq : card.order ::ₘ (colOrders (l₁ ++ l₂) C : Multiset Nat) =
      Multiset.range ((ordersList db C).length) := by
    rw [← hsplitM, ← ordersList_def]; exact hd'
  have := congrArg (fun s => Multiset.erase s card.order) hEq
  simpa [Multiset.erase_cons_head] using this

theorem moveCardToColumn_dense {userId cardId : Nat} {body : MoveBody}
    {db db' : DB} {moved : Card} {C : Nat}
    (h : moveCardToColumn userId cardId body db = .ok (db', moved))
    (hguard : moveGuard (.move userId cardId body) db)
    (hd : denseCol db C) : denseCol db' C := by
  obtain ⟨card, ncid, dcol, hfind, hown, hbody, hcol, hdown, hmoved,
    hcols, hcards⟩ := moveCardToColumn_ok_elim h
  obtain ⟨l₁, l₂, hsplit, hno, _⟩ := find?_split hfind
  obtain ⟨hg, hgne⟩ := hguard card hfind ncid hbody
  have hd' : (ordersList db C : Multiset Nat) =
      Multiset.range ((ordersList db C).length) := hd
  have hmovedcol : moved.column = ncid := by rw [hmoved]
  have hmovedord : moved.order = body.newPosition.getD 0 := by rw [hmoved]
  have hUF : db'.cards =
      ((l₁.map (decShift card.column card.order)).map
        (incShift ncid (body.newPosition.getD 0))) ++
      moved :: ((l₂.map (decShift card.column card.order)).map
        (incShift ncid (body.newPosition.getD 0))) := by
    rw [hcards, hsplit]
    have hpt := find?_eq_true hfind
    rw [updateFirst_maps_split
        (saveMoved card ncid (body.newPosition.getD 0)) hno hpt
        (decShift card.column card.order)
        (incShift ncid (body.newPosition.getD 0))
        (decShift_id card.column card.order)
        (incShift_id ncid (body.newPosition.getD 0)),
      saveMoved_stored, if_neg (fun hc => (hgne hc.1) hc.2), ← hmoved]
  have hOrd : ordersList db' C =
      colOrders ((l₁.map (decShift card.column card.order)).map
        (incShift ncid (body.newPosition.getD 0))) C ++
      ((if moved.column == C then [moved.order] else []) ++
        colOrders ((l₂.map (decShift card.column card.order)).map
          (incShift ncid (body.newPosition.getD 0))) C) := by
    rw [ordersList_def, hUF, colOrders_append, colOrders_cons]
  by_cases hsrc : card.column = C
  · by_cases hdst : ncid = C
    · -- moving inside column C
      subst hdst
      rw [if_pos hsrc] at hg
      have hp1 : body.newPosition.getD 0 + 1 ≤ (ordersList db ncid).length := by
        rw [colCount_eq_length] at hg
        omega
      obtain ⟨hk, herased⟩ := coe_colOrders_erase hsplit hsrc hd'
      have hmapped : ∀ l : List Card,
          colOrders ((l.map (decShift card.column card.order)).map
            (incShift ncid (body.newPosition.getD 0))) ncid =
          ((colOrders l ncid).map
            (fun o => if card.order < o then o - 1 else o)).map
            (fun o => if body.newPosition.getD 0 ≤ o then o + 1 else o) := by
        intro l
        refine colOrders_two_maps (decShift_column _ _) (incShift_column _ _)
          ?_ ?_ l
        · intro c hc
          rw [decShift_order_of_eq card.order (by rw [hc, hsrc])]
        · intro c hc
          rw [incShift_order_of_eq (body.newPosition.getD 0) hc]
      have hL : ordersList db' ncid =
          ((colOrders l₁ ncid).map
            (fun o => if card.order < o then o - 1 else o)).map
            (fun o => if body.newPosition.getD 0 ≤ o then o + 1 else o) ++
          moved.order ::
          ((colOrders l₂ ncid).map
            (fun o => if card.order < o then o - 1 else o)).map
            (fun o => if body.newPosition.getD 0 ≤ o then o + 1 else o) := by
        rw [hOrd, hmapped l₁, hmapped l₂, if_pos (by simp [hmovedcol]),
          List.singleton_append]
      have hAB : ((colOrders l₁ ncid).map
            (fun o => if card.order < o then o - 1 else o)).map
            (fun o => if body.newPosition.getD 0 ≤ o then o + 1 else o) ++
          ((colOrders l₂ ncid).map
            (fun o => if card.order < o then o - 1 else o)).map
            (fun o => if body.newPosition.getD 0 ≤ o then o + 1 else o) =
          ((colOrders (l₁ ++ l₂) ncid).map
            (fun o => if card.order < o then o - 1 else o)).map
            (fun o => if body.newPosition.getD 0 ≤ o then o + 1 else o) := by
        rw [colOrders_append, List.map_append, List.map_append]
      have hM : (ordersList db' ncid : Multiset Nat) =
          Multiset.range ((ordersList db ncid).length) := by
        rw [hL, coe_middle, hAB, ← Multiset.map_coe, ← Multiset.map_coe,
          herased, dec_range _ card.order hk,
          inc_range _ (body.newPosition.getD 0) (by omega), hmovedord]
        rw [show (ordersList db ncid).length - 1 + 1 =
          (ordersList db ncid).length by omega]
        exact Multiset.cons_erase (Multiset.mem_range.mpr (by omega))
      have hlen : (ordersList db' ncid).length =
          (ordersList db ncid).length := by
        have := congrArg Multiset.card hM
        simpa [Multiset.coe_card, Multiset.card_range] using this
      show (ordersList db' ncid : Multiset Nat) =
        Multiset.range ((ordersList db' ncid).length)
      rw [hM, hlen]
    · -- C is the source column and not the destination
      obtain ⟨hk, herased⟩ := coe_colOrders_erase hsplit hsrc hd'
      have hmapped : ∀ l : List Card,
          colOrders ((l.map (decShift card.column card.order)).map
            (incShift ncid (body.newPosition.getD 0))) C =
          (colOrders l C).map
            (fun o => if card.order < o then o - 1 else o) := by
        intro l
        have h2 := @colOrders_two_maps
          (decShift card.column card.order)
          (incShift ncid (body.newPosition.getD 0))
          (fun o => if card.order < o then o - 1 else o) id C
          (decShift_column card.column card.order)
          (incShift_column ncid (body.newPosition.getD 0))
          (fun c hc => by
            rw [decShift_order_of_eq card.order (by rw [hc, hsrc])])
          (fun c hc => by
            rw [incShift_of_ne (body.newPosition.getD 0)
              (by rw [hc]; exact fun hh => hdst hh.symm)]
            rfl)
          l
        rw [h2, List.map_id]
      have hL : ordersList db' C =
          (colOrders (l₁ ++ l₂) C).map
            (fun o => if card.order < o then o - 1 else o) := by
        rw [hOrd, hmapped l₁, hmapped l₂,
          if_neg (by simp [hmovedcol]; omega), colOrders_append,
          List.map_append]
        simp
      have hM : (ordersList db' C : Multiset Nat) =
          Multiset.range ((ordersList db C).length - 1) := by
        rw [hL, ← Multiset.map_coe, herased, dec_range _ card.order hk]
      have hlen : (ordersList db' C).length =
          (ordersList db C).length - 1 := by
        have := congrArg Multiset.card hM
        simpa [Multiset.coe_card, Multiset.card_range] using this
      show (ordersList db' C : Multiset Nat) =
        Multiset.range ((ordersList db' C).length)
      rw [hM, hlen]
  · by_cases hdst : ncid = C
    · -- C is the destination column and not the source
      subst hdst
      rw [if_neg hsrc] at hg
      have hple : body.newPosition.getD 0 ≤ (ordersList db ncid).length := by
        rw [colCount_eq_length] at hg
        omega
      have hmapped : ∀ l : List Card,
          colOrders ((l.map (decShift card.column card.order)).map
            (incShift ncid (body.newPosition.getD 0))) ncid =
          (colOrders l ncid).map
            (fun o => if body.newPosition.getD 0 ≤ o then o + 1 else o) := by
        intro l
        have h2 := @colOrders_two_maps
          (decShift card.column card.order)
          (incShift ncid (body.newPosition.getD 0)) id
          (fun o => if body.newPosition.getD 0 ≤ o then o + 1 else o) ncid
          (decShift_column card.column card.order)
          (incShift_column ncid (body.newPosition.getD 0))
          (fun c hc => by
            rw [decShift_of_ne card.order
              (by rw [hc]; exact fun hh => hsrc hh.symm)]
            rfl)
          (fun c hc => by
            rw [incShift_order_of_eq (body.newPosition.getD 0) hc])
          l
        rw [h2, List.map_id]
      have hL : ordersList db' ncid =
          (colOrders l₁ ncid).map
            (fun o => if body.newPosition.getD 0 ≤ o then o + 1 else o) ++
          moved.order ::
          (colOrders l₂ ncid).map
            (fun o => if body.newPosition.getD 0 ≤ o then o + 1 else o) := by
        rw [hOrd, hmapped l₁, hmapped l₂, if_pos (by simp [hmovedcol]),
          List.singleton_append]
      have hAB : (colOrders l₁ ncid).map
            (fun o => if body.newPosition.getD 0 ≤ o then o + 1 else o) ++
          (colOrders l₂ ncid).map
            (fun o => if body.newPosition.getD 0 ≤ o then o + 1 else o) =
          (colOrders (l₁ ++ l₂) ncid).map
            (fun o => if body.newPosition.getD 0 ≤ o then o + 1 else o) := by
        rw [colOrders_append, List.map_append]
      have hM : (ordersList db' ncid : Multiset Nat) =
          Multiset.range ((ordersList db ncid).length + 1) := by
        rw [hL, coe_middle, hAB, ← Multiset.map_coe]
        rw [show colOrders (l₁ ++ l₂) ncid = ordersList db ncid from by
          rw [ordersList_def, hsplit, colOrders_middle_out hsrc]]
        rw [hd', inc_range _ (body.newPosition.getD 0) hple, hmovedord]
        exact Multiset.cons_erase (Multiset.mem_range.mpr (by omega))
      have hlen : (ordersList db' ncid).length =
          (ordersList db ncid).length + 1 := by
        have := congrArg Multiset.card hM
        simpa [Multiset.coe_card, Multiset.card_range] using this
      show (ordersList db' ncid : Multiset Nat) =
        Multiset.range ((ordersList db' ncid).length)
      rw [hM, hlen]
    · -- C is neither the source nor the destination
      have hmapped : ∀ l : List Card,
          colOrders ((l.map (decShift card.column card.order)).map
            (incShift ncid (body.newPosition.getD 0))) C =
          colOrders l C := by
        intro l
        have h2 := @colOrders_two_maps
          (decShift card.column card.order)
          (incShift ncid (body.newPosition.getD 0)) id id C
          (decShift_column card.column card.order)
          (incShift_column ncid (body.newPosition.getD 0))
          (fun c hc => by
            rw [decShift_of_ne card.order
              (by rw [hc]; exact fun hh => hsrc hh.symm)]
            rfl)
          (fun c hc => by
            rw [incShift_of_ne (body.newPosition.getD 0)
              (by rw [hc]; exact fun hh => hdst hh.symm)]
            rfl)
          l
        rw [h2, List.map_id, List.map_id]
      have hL : ordersList db' C = colOrders (l₁ ++ l₂) C := by
        rw [hOrd, hmapped l₁, hmapped l₂,
          if_neg (by simp [hmovedcol]; omega), colOrders_append]
        simp
      have hunch : ordersList db' C = ordersList db C := by
        rw [hL, ordersList_def, hsplit, colOrders_middle_out hsrc]
      show (ordersList db' C : Multiset Nat) =
        Multiset.range ((ordersList db' C).length)
      rw [hunch]
      exact hd'

/-! ## Claims -/

theorem applyOp_dense {op : Op} {db db' : DB} {C : Nat}
    (hok : applyOp op db = .ok db') (hguard : moveGuard op db)
    (hd : denseCol db C) : denseCol db' C := by
  cases op with
  | create userId newId body =>
    have hok' : (createCard userId newId body db).map Prod.fst = .ok db' := hok
    cases hc : createCard userId newId body db with
    | error e => rw [hc] at hok'; exact absurd hok' (by simp [Except.map])
    | ok pr =>
      rw [hc] at hok'
      obtain ⟨db1, card⟩ := pr
      have hdb : db1 = db' := by simpa [Except.map] using hok'
      subst hdb
      exact createCard_dense hc hd
  | delete userId cardId => exact deleteCard_dense hok hd
  | move userId cardId body =>
    have hok' : (moveCardToColumn userId cardId body db).map Prod.fst =
        .ok db' := hok
    cases hc : moveCardToColumn userId cardId body db with
    | error e => rw [hc] at hok'; exact absurd hok' (by simp [Except.map])
    | ok pr =>
      rw [hc] at hok'
      obtain ⟨db1, moved⟩ := pr
      have hdb : db1 = db' := by simpa [Except.map] using hok'
      subst hdb
      exact moveCardToColumn_dense hc hguard hd

/-- **C1 (amended).** For every column `C` and every sequence of
successful Append (`createCard`), Delete (`deleteCard`) and Move
(`moveCardToColumn`) operations starting from a state where `C`'s cards
have orders `{0..count-1}`, *provided every Move satisfies the
`moveGuard` side condition — its `newPosition` is at most the number of
cards of its destination column (strictly less when the moved card
already sits in that column), and a same-column Move does not target
the card's own current position (there Mongoose's `save()` writes
nothing and the step-2 increment survives)* — the multiset of `order`
values among cards with `card.column = C` is again exactly
`{0, ..., count(C)-1}` at the end of the run; since every prefix of
such a run is itself such a run, this holds at the end of each
operation.  Without the side condition the claim fails, see the
counterexample. -/
theorem steps_preserve_denseCol {db db' : DB} {ops : List Op} {C : Nat}
    (hsteps : Steps db ops db') (hd : denseCol db C) : denseCol db' C := by
  induction hsteps with
  | nil _ => exact hd
  | cons hok hguard _ ih => exact ih (applyOp_dense hok hguard hd)

/-- **C1 (counterexample).** A single successful Move whose
`newPosition` (9) exceeds the destination column's card count (5) leaves
the destination column with order multiset `{0,1,2,3,4,9}` — not dense —
so the claim as stated (quantifying over *all* successful Move
operations) is false. -/
theorem moveBeyondCount_breaks_density :
    applyOp (.move 1 6 { newColumnId := some 10, newPosition := some 9 })
        dbFix = .ok dbC1after ∧
      denseCol dbFix 10 ∧ ¬ denseCol dbC1after 10 :=
  ⟨by decide, by decide, by decide⟩

/-- **C1 (witness).** The amended invariant applied to the concrete run
`[move card 3 to column 20 at position 1]` from the dense fixture: the
move satisfies `moveGuard` (1 + 0 ≤ 3, cross-column) and column 20 ends
dense. -/
theorem steps_preserve_denseCol_witness : denseCol dbC4w 20 :=
  steps_preserve_denseCol
    (@Steps.cons dbFix dbC4w dbC4w
      (Op.move 1 3 { newColumnId := some 20, newPosition := some 1 }) []
      (by decide)
      (fun card hcard ncid hncid => by
        have hfind : dbFix.cards.find? (fun c => c.id == 3) =
            some (mkCard 3 10 2) := by decide
        have hcard2 : dbFix.cards.find? (fun c => c.id == 3) =
            some card := hcard
        have hc := hfind.symm.trans hcard2
        injection hc with hc
        subst hc
        have hn : (some 20 : Option Nat) = some ncid := hncid
        injection hn with hn
        subst hn
        exact ⟨by decide, by decide⟩)
      (Steps.nil dbC4w))
    (by decide)

theorem createCard_simpleBody_ok {userId i columnId : Nat} {db : DB}
    {col : Column}
    (hfind : db.columns.find? (fun c => c.id == columnId) = some col)
    (hown : col.owner = userId) :
    createCard userId i (simpleBody columnId) db =
      .ok ({ db with cards := db.cards ++
          [taskCard userId i columnId (colCount db columnId)] },
        taskCard userId i columnId (colCount db columnId)) := by
  have h1 : createCard userId i (simpleBody columnId) db =
      match db.columns.find? (fun c => c.id == columnId) with
      | none => .error .notFound
      | some c =>
        if c.owner ≠ userId then .error .forbidden
        else .ok ({ db with cards := db.cards ++
            [taskCard userId i columnId (colCount db columnId)] },
          taskCard userId i columnId (colCount db columnId)) := rfl
  rw [h1, hfind]
  simp [hown]

theorem appendMany_orders {userId columnId : Nat} {col : Column} :
    ∀ (ids : List Nat) (db : DB),
    db.columns.find? (fun c => c.id == columnId) = some col →
    col.owner = userId →
    ordersList (appendMany userId columnId ids db) columnId =
      ordersList db columnId ++
        List.range' (ordersList db columnId).length ids.length := by
  intro ids
  induction ids with
  | nil => intro db _ _; simp [appendMany]
  | cons i ids ih =>
    intro db hfind hown
    have hsucc := @createCard_simpleBody_ok userId i columnId db col
      hfind hown
    have hstep : appendMany userId columnId (i :: ids) db =
        appendMany userId columnId ids ({ db with cards := db.cards ++
          [taskCard userId i columnId (colCount db columnId)] }) := by
      unfold appendMany
      rw [List.foldl_cons, hsucc]
    have hL : ordersList ({ db with cards := db.cards ++
        [taskCard userId i columnId (colCount db columnId)] }) columnId =
        ordersList db columnId ++ [(ordersList db columnId).length] := by
      show colOrders (db.cards ++ _) columnId = _
      rw [colOrders_append, colOrders_cons,
        if_pos (by simp [taskCard])]
      show ordersList db columnId ++
        ([(taskCard userId i columnId (colCount db columnId)).order] ++
          colOrders [] columnId) = _
      rw [show (taskCard userId i columnId (colCount db columnId)).order =
        colCount db columnId from rfl, colCount_eq_length]
      simp [colOrders]
    rw [hstep, ih ({ db with cards := db.cards ++
      [taskCard userId i columnId (colCount db columnId)] }) hfind hown, hL]
    rw [List.length_append, List.length_singleton, List.length_cons,
      List.range'_succ]
    simp

/-- **C2.** Every successful Append (`createCard`) gives the new card an
`order` equal to the number of cards already stored in its column at
call time, and only appends: the stored card list is the old list plus
the new card, so no existing card's `order` (or any other field)
changes; consequently (second conjunct) appending K cards in sequence to
an empty column yields orders 0..K-1 in append order. -/
theorem createCard_append_spec :
    (∀ (userId newId : Nat) (body : CreateBody) (db db' : DB) (card : Card),
      createCard userId newId body db = .ok (db', card) →
        card.order = colCount db card.column ∧
        db'.cards = db.cards ++ [card] ∧ db'.columns = db.columns) ∧
    (∀ (userId columnId : Nat) (ids : List Nat) (db : DB) (col : Column),
      db.columns.find? (fun c => c.id == columnId) = some col →
      col.owner = userId →
      ordersList db columnId = [] →
      ordersList (appendMany userId columnId ids db) columnId =
        List.range ids.length) := by
  constructor
  · intro userId newId body db db' card h
    obtain ⟨t, columnId, col, due, _, _, _, _, _, _, hcard, hdb'⟩ :=
      createCard_ok_elim h
    refine ⟨?_, by rw [hdb'], by rw [hdb']⟩
    rw [hcard]
  · intro userId columnId ids db col hfind hown hempty
    rw [appendMany_orders ids db hfind hown, hempty]
    simp [List.range_eq_range']

/-- **C2 (witness).** The append characterization at a concrete call
(order 3 = prior count of column 20), and two appends to the empty
column 20 yielding orders `[0, 1]`. -/
theorem createCard_append_spec_witness :
    ((taskCard 1 99 20 3).order = colCount dbFix (taskCard 1 99 20 3).column ∧
      dbC2after.cards = dbFix.cards ++ [taskCard 1 99 20 3] ∧
      dbC2after.columns = dbFix.columns) ∧
    ordersList (appendMany 1 20 [101, 102] dbEmpty) 20 = List.range 2 :=
  ⟨createCard_append_spec.1 1 99 (simpleBody 20) dbFix dbC2after
      (taskCard 1 99 20 3) (by decide),
    createCard_append_spec.2 1 20 [101, 102] dbEmpty colB (by decide)
      (by decide) (by decide)⟩

/-- **C3.** Every successful Delete (`deleteCard`) of an existing card
removes exactly that card (no surviving card carries its id, one card
fewer) and maps the survivors in place, preserving their relative
order: a survivor in the deleted card's column with larger `order` is
decremented by exactly 1, while survivors with smaller `order` and
cards of other columns are unchanged; the column collection is
untouched. -/
theorem deleteCard_effect {userId cardId : Nat} {db db' : DB} {card : Card}
    (hnodup : (db.cards.map Card.id).Nodup)
    (hfind : db.cards.find? (fun c => c.id == cardId) = some card)
    (h : deleteCard userId cardId db = .ok db') :
    db'.columns = db.columns ∧
    (∀ c' ∈ db'.cards, c'.id ≠ cardId) ∧
    db'.cards.length + 1 = db.cards.length ∧
    (∃ l₁ l₂, db.cards = l₁ ++ card :: l₂ ∧
      db'.cards = (l₁ ++ l₂).map (fun c =>
        if c.column = card.column ∧ card.order < c.order then
          { c with order := c.order - 1 } else c)) := by
  obtain ⟨card2, hfind2, hown, hcols, hcards0⟩ := deleteCard_ok_elim h
  rw [hfind] at hfind2
  obtain rfl : card = card2 := by injection hfind2
  obtain ⟨l₁, l₂, hsplit, hno, herase⟩ := find?_split hfind
  have hcid : card.id = cardId := by
    have := find?_eq_true hfind
    simpa using this
  have hpt : ∀ c : Card,
      (if c.column = card.column ∧ card.order < c.order then
        { c with order := c.order - 1 } else c) =
      decShift card.column card.order c := by
    intro c
    unfold decShift
    by_cases h1 : c.column = card.column
    · by_cases h2 : card.order < c.order
      · rw [if_pos ⟨h1, h2⟩, if_pos (by simp [h1, h2])]
      · rw [if_neg (by tauto), if_neg (by simp [h1, h2])]
    · rw [if_neg (by tauto), if_neg (by simp [h1])]
  have hcards : db'.cards = (l₁ ++ l₂).map (fun c =>
      if c.column = card.column ∧ card.order < c.order then
        { c with order := c.order - 1 } else c) := by
    rw [hcards0, herase]
    exact (List.map_congr_left fun c _ => (hpt c).symm)
  have hnotin : card.id ∉ l₂.map Card.id := by
    rw [hsplit] at hnodup
    rw [List.map_append, List.map_cons] at hnodup
    have := hnodup.of_append_right
    exact (List.nodup_cons.mp this).1
  refine ⟨hcols, ?_, ?_, l₁, l₂, hsplit, hcards⟩
  · intro c' hc'
    rw [hcards] at hc'
    obtain ⟨c0, hc0, rfl⟩ := List.mem_map.mp hc'
    have hid : (if c0.column = card.column ∧ card.order < c0.order then
        { c0 with order := c0.order - 1 } else c0).id = c0.id := by
      by_cases hb : c0.column = card.column ∧ card.order < c0.order <;>
        simp [hb]
    rw [hid]
    rcases List.mem_append.mp hc0 with h1 | h2
    · have := hno c0 h1
      simpa using this
    · intro hcontra
      exact hnotin (by rw [hcid, ← hcontra]; exact List.mem_map_of_mem _ h2)
  · rw [hcards, List.length_map, hsplit]
    simp
    omega

/-- **C3 (witness).** Deleting the card at order 2 from the fixture's
column 10 (orders {0,1,2,3,4}): the column collection is untouched and
exactly one card is gone; the survivors of `dbDel3` are re-labeled
{0,1,2,3} as computed by the store model. -/
theorem deleteCard_effect_witness :
    dbDel3.columns = dbFix.columns ∧ dbDel3.cards.length + 1 =
      dbFix.cards.length :=
  ⟨(@deleteCard_effect 1 3 dbFix dbDel3 (mkCard 3 10 2) (by decide)
      (by decide) (by decide)).1,
    (@deleteCard_effect 1 3 dbFix dbDel3 (mkCard 3 10 2) (by decide)
      (by decide) (by decide)).2.2.1⟩

theorem decShift_eq_ite (columnId pivot : Nat) (c : Card) :
    decShift columnId pivot c =
      if c.column = columnId ∧ pivot < c.order then
        { c with order := c.order - 1 } else c := by
  unfold decShift
  by_cases h1 : c.column = columnId
  · by_cases h2 : pivot < c.order
    · rw [if_pos (by simp [h1, h2]), if_pos ⟨h1, h2⟩]
    · rw [if_neg (by simp [h1, h2]), if_neg (by tauto)]
  · rw [if_neg (by simp [h1]), if_neg (by tauto)]

theorem incShift_eq_ite (columnId pos : Nat) (c : Card) :
    incShift columnId pos c =
      if c.column = columnId ∧ pos ≤ c.order then
        { c with order := c.order + 1 } else c := by
  unfold incShift
  by_cases h1 : c.column = columnId
  · by_cases h2 : pos ≤ c.order
    · rw [if_pos (by simp [h1, h2]), if_pos ⟨h1, h2⟩]
    · rw [if_neg (by simp [h1, h2]), if_neg (by tauto)]
  · rw [if_neg (by simp [h1]), if_neg (by tauto)]

theorem move_cross_member {userId cardId : Nat} {body : MoveBody}
    {db db' : DB} {moved card : Card} {newColumnId : Nat}
    (hfind : db.cards.find? (fun c => c.id == cardId) = some card)
    (hbody : body.newColumnId = some newColumnId)
    (h : moveCardToColumn userId cardId body db = .ok (db', moved))
    (hcross : card.column ≠ newColumnId) :
    ∀ c ∈ db.cards, c.column = newColumnId →
      incShift newColumnId (body.newPosition.getD 0) c ∈ db'.cards := by
  obtain ⟨card2, ncid2, dcol, hfind2, hown, hbody2, hcol, hdown, hmoved,
    hcols, hcards⟩ := moveCardToColumn_ok_elim h
  rw [hfind] at hfind2
  obtain rfl : card = card2 := by injection hfind2
  rw [hbody] at hbody2
  obtain rfl : newColumnId = ncid2 := by injection hbody2
  obtain ⟨l₁, l₂, hsplit, hno, _⟩ := find?_split hfind
  have hUF : db'.cards =
      (l₁.map (decShift card.column card.order)).map
        (incShift newColumnId (body.newPosition.getD 0)) ++
      moved :: (l₂.map (decShift card.column card.order)).map
        (incShift newColumnId (body.newPosition.getD 0)) := by
    rw [hcards, hsplit]
    have hpid := find?_eq_true hfind
    rw [updateFirst_maps_split
        (saveMoved card newColumnId (body.newPosition.getD 0)) hno hpid
        (decShift card.column card.order)
        (incShift newColumnId (body.newPosition.getD 0))
        (decShift_id card.column card.order)
        (incShift_id newColumnId (body.newPosition.getD 0)),
      saveMoved_stored, if_neg (fun hc => hcross hc.1), ← hmoved]
  intro c hc hcCol
  have hdec : decShift card.column card.order c = c :=
    decShift_of_ne card.order
      (by rw [hcCol]; exact fun hh => hcross hh.symm)
  rw [hUF]
  rw [hsplit] at hc
  rcases List.mem_append.mp hc with h1 | h2
  · refine List.mem_append_left _ ?_
    have hmem := List.mem_map_of_mem
      (incShift newColumnId (body.newPosition.getD 0))
      (List.mem_map_of_mem (decShift card.column card.order) h1)
    rwa [hdec] at hmem
  · rcases List.mem_cons.mp h2 with rfl | h2'
    · exact absurd hcCol hcross
    · refine List.mem_append_right _ ?_
      refine List.mem_cons_of_mem _ ?_
      have hmem := List.mem_map_of_mem
        (incShift newColumnId (body.newPosition.getD 0))
        (List.mem_map_of_mem (decShift card.column card.order) h2')
      rwa [hdec] at hmem

/-- **C4 (amended).** Every successful Move performs the three steps in
order: (1) close the gap in the source column (decrement orders above
the moved card's old order), (2) make room in the destination
(increment orders at or above `newPosition`), (3) assign
`column = newColumnId` and `order = newPosition` on the fetched
document and `save()` it — Mongoose persists only the modified paths,
so the stored card carries the new column and `order = newPosition` in
every case *except* a same-column move onto the card's own old
position, where neither path is marked modified, nothing is written,
and the stored card keeps the step-2 increment (`order` = old order
+ 1); the response document reports the assigned values regardless.
The split conjunct states the resulting card list positionally.  The
boundary behaviors hold *when the destination differs from the source
column*: with a dense destination, `newPosition` = prior count shifts
no destination card (append-at-end), and `newPosition` = 0 shifts every
destination card up by one (prepend).  For a same-column move the
unconditional step-(3) store and the boundary sentences fail, see the
counterexample. -/
theorem moveCardToColumn_effect {userId cardId : Nat} {body : MoveBody}
    {db db' : DB} {moved card : Card} {newColumnId : Nat}
    (hfind : db.cards.find? (fun c => c.id == cardId) = some card)
    (hbody : body.newColumnId = some newColumnId)
    (h : moveCardToColumn userId cardId body db = .ok (db', moved)) :
    moved = { card with column := newColumnId
                        order := body.newPosition.getD 0 } ∧
    db'.columns = db.columns ∧
    (∃ l₁ l₂, db.cards = l₁ ++ card :: l₂ ∧
      db'.cards =
        l₁.map (fun c =>
          (fun c1 => if c1.column = newColumnId ∧
              body.newPosition.getD 0 ≤ c1.order then
            { c1 with order := c1.order + 1 } else c1)
          (if c.column = card.column ∧ card.order < c.order then
            { c with order := c.order - 1 } else c)) ++
        (if card.column = newColumnId ∧
            body.newPosition.getD 0 = card.order then
          { card with order := card.order + 1 }
        else { card with column := newColumnId,
                         order := body.newPosition.getD 0 }) ::
        l₂.map (fun c =>
          (fun c1 => if c1.column = newColumnId ∧
              body.newPosition.getD 0 ≤ c1.order then
            { c1 with order := c1.order + 1 } else c1)
          (if c.column = card.column ∧ card.order < c.order then
            { c with order := c.order - 1 } else c))) ∧
    (card.column ≠ newColumnId → denseCol db newColumnId →
      body.newPosition.getD 0 = colCount db newColumnId →
      ∀ c ∈ db.cards, c.column = newColumnId → c ∈ db'.cards) ∧
    (card.column ≠ newColumnId → body.newPosition.getD 0 = 0 →
      ∀ c ∈ db.cards, c.column = newColumnId →
        { c with order := c.order + 1 } ∈ db'.cards) := by
  obtain ⟨card2, ncid2, dcol, hfind2, hown, hbody2, hcol, hdown, hmoved,
    hcols, hcards⟩ := moveCardToColumn_ok_elim h
  rw [hfind] at hfind2
  obtain rfl : card = card2 := by injection hfind2
  rw [hbody] at hbody2
  obtain rfl : newColumnId = ncid2 := by injection hbody2
  obtain ⟨l₁, l₂, hsplit, hno, _⟩ := find?_split hfind
  have hUF : db'.cards =
      (l₁.map (decShift card.column card.order)).map
        (incShift newColumnId (body.newPosition.getD 0)) ++
      (if card.column = newColumnId ∧
          body.newPosition.getD 0 = card.order then
        { card with order := card.order + 1 }
      else { card with column := newColumnId,
                       order := body.newPosition.getD 0 }) ::
      (l₂.map (decShift card.column card.order)).map
        (incShift newColumnId (body.newPosition.getD 0)) := by
    rw [hcards, hsplit]
    have hpid := find?_eq_true hfind
    rw [updateFirst_maps_split
        (saveMoved card newColumnId (body.newPosition.getD 0)) hno hpid
        (decShift card.column card.order)
        (incShift newColumnId (body.newPosition.getD 0))
        (decShift_id card.column card.order)
        (incShift_id newColumnId (body.newPosition.getD 0)),
      saveMoved_stored]
  refine ⟨hmoved, hcols, ⟨l₁, l₂, hsplit, ?_⟩, ?_, ?_⟩
  · rw [hUF, List.map_map, List.map_map]
    congr 1
    · exact List.map_congr_left (fun c _ => by
        show incShift _ _ (decShift _ _ c) = _
        rw [decShift_eq_ite, incShift_eq_ite])
    · congr 1
      exact List.map_congr_left (fun c _ => by
        show incShift _ _ (decShift _ _ c) = _
        rw [decShift_eq_ite, incShift_eq_ite])
  · intro hcross hdense hp c hc hcCol
    have hmem := move_cross_member hfind hbody h hcross c hc hcCol
    have hlt : c.order < (ordersList db newColumnId).length := by
      have hmemo : c.order ∈ (ordersList db newColumnId : Multiset Nat) := by
        rw [ordersList_def]
        exact Multiset.mem_coe.mpr (mem_colOrders hc hcCol)
      have hd' : (ordersList db newColumnId : Multiset Nat) =
          Multiset.range ((ordersList db newColumnId).length) := hdense
      rw [hd'] at hmemo
      exact Multiset.mem_range.mp hmemo
    have hfix : incShift newColumnId (body.newPosition.getD 0) c = c := by
      rw [incShift_eq_ite]
      refine if_neg ?_
      rintro ⟨_, hle⟩
      rw [hp, colCount_eq_length] at hle
      omega
    rwa [hfix] at hmem
  · intro hcross hp0 c hc hcCol
    have hmem := move_cross_member hfind hbody h hcross c hc hcCol
    have hfix : incShift newColumnId (body.newPosition.getD 0) c =
        { c with order := c.order + 1 } := by
      rw [incShift_eq_ite]
      exact if_pos ⟨hcCol, by rw [hp0]; omega⟩
    rwa [hfix] at hmem

/-- **C4 (counterexample).** Two same-column moves refute the claim as
stated.  (a) Boundary: moving card 6 *within* column 20 (three cards,
orders {0,1,2}) to `newPosition = 3` — the destination's prior count —
does shift a destination card: card 7 moves from order 1 to order 0,
and the result {0,1,3} is not an append-at-end.  (b) Step (3) is not an
unconditional store: moving card 6 within column 20 to `newPosition =
0` — its own current order — leaves the card stored at order 1 (the
step-2 increment; `save()` writes neither path since both assigned
values equal the fetched document's), not at `newPosition`. -/
theorem moveSameColumnAtCount_shifts :
    (moveCardToColumn 1 6 { newColumnId := some 20, newPosition := some 3 }
        dbFix = .ok (dbC4cex, mkCard 6 20 3) ∧
      colCount dbFix 20 = 3 ∧
      mkCard 7 20 1 ∈ dbFix.cards ∧ mkCard 7 20 1 ∉ dbC4cex.cards ∧
      mkCard 7 20 0 ∈ dbC4cex.cards ∧ ¬ denseCol dbC4cex 20) ∧
    (moveCardToColumn 1 6 { newColumnId := some 20, newPosition := some 0 }
        dbFix = .ok (dbMoveNoOp, mkCard 6 20 0) ∧
      mkCard 6 20 1 ∈ dbMoveNoOp.cards ∧
      mkCard 6 20 0 ∉ dbMoveNoOp.cards) :=
  ⟨⟨by decide, by decide, by decide, by decide, by decide, by decide⟩,
    by decide, by decide, by decide⟩

/-- **C4 (witness).** The three-step characterization applied to the
concrete cross-column move of card 3 into column 20 at position 1, and
the append-at-end boundary applied to the same move at position 3
(count of column 20), showing card 6 untouched. -/
theorem moveCardToColumn_effect_witness :
    (mkCard 3 20 1 = { (mkCard 3 10 2) with column := 20, order := 1 } ∧
      dbC4w.columns = dbFix.columns) ∧
    mkCard 6 20 0 ∈ dbC4w2.cards :=
  ⟨⟨(@moveCardToColumn_effect 1 3
        { newColumnId := some 20, newPosition := some 1 } dbFix dbC4w
        (mkCard 3 20 1) (mkCard 3 10 2) 20 (by decide) rfl (by decide)).1,
      (@moveCardToColumn_effect 1 3
        { newColumnId := some 20, newPosition := some 1 } dbFix dbC4w
        (mkCard 3 20 1) (mkCard 3 10 2) 20 (by decide) rfl (by decide)).2.1⟩,
    (@moveCardToColumn_effect 1 3
        { newColumnId := some 20, newPosition := some 3 } dbFix dbC4w2
        (mkCard 3 20 3) (mkCard 3 10 2) 20 (by decide) rfl
        (by decide)).2.2.2.1 (by decide) (by decide) (by decide)
      (mkCard 6 20 0) (by decide) (by decide)⟩

/-- **C10 (amended).** A Move whose body omits `newPosition` behaves
exactly as a Move with `newPosition = 0` (the destructuring default).
The response reports the card at position 0 in the destination column,
and — when the destination differs from the source column — the card
is indeed stored with the new column and order 0 and every existing
destination card's `order` is incremented by 1 (prepend).  For a
same-column move of the card at order 0 both the "placed at position 0"
and the "every destination card incremented" sentences fail, see the
counterexample. -/
theorem move_default_newPosition :
    (∀ (userId cardId : Nat) (nc : Option Nat) (db : DB),
      moveCardToColumn userId cardId
        { newColumnId := nc, newPosition := none } db =
      moveCardToColumn userId cardId
        { newColumnId := nc, newPosition := some 0 } db) ∧
    (∀ (userId cardId : Nat) (nc : Option Nat) (db db' : DB)
      (moved card : Card) (newColumnId : Nat),
      db.cards.find? (fun c => c.id == cardId) = some card →
      nc = some newColumnId →
      moveCardToColumn userId cardId
        { newColumnId := nc, newPosition := none } db = .ok (db', moved) →
      moved = { card with column := newColumnId, order := 0 } ∧
      (card.column ≠ newColumnId →
        moved ∈ db'.cards ∧
        ∀ c ∈ db.cards, c.column = newColumnId →
          { c with order := c.order + 1 } ∈ db'.cards)) := by
  constructor
  · intro userId cardId nc db
    rfl
  · intro userId cardId nc db db' moved card newColumnId hfind hnc h
    obtain ⟨card2, ncid2, dcol, hfind2, hown, hbody2, hcol, hdown, hmoved,
      hcols, hcards⟩ := moveCardToColumn_ok_elim h
    rw [hfind] at hfind2
    obtain rfl : card = card2 := by injection hfind2
    have hbody2' : nc = some ncid2 := hbody2
    rw [hnc] at hbody2'
    obtain rfl : newColumnId = ncid2 := by injection hbody2'
    refine ⟨by subst hmoved; rfl, ?_⟩
    intro hcross
    constructor
    · obtain ⟨l₁, l₂, hsplit, hno, _⟩ := find?_split hfind
      have hpid := find?_eq_true hfind
      rw [hcards, hsplit, updateFirst_maps_split
          (saveMoved card newColumnId
            (({ newColumnId := nc,
                newPosition := none } : MoveBody).newPosition.getD 0))
          hno hpid
          (decShift card.column card.order)
          (incShift newColumnId
            (({ newColumnId := nc,
                newPosition := none } : MoveBody).newPosition.getD 0))
          (decShift_id card.column card.order)
          (incShift_id newColumnId
            (({ newColumnId := nc,
                newPosition := none } : MoveBody).newPosition.getD 0)),
        saveMoved_stored, if_neg (fun hc => hcross hc.1), ← hmoved]
      exact List.mem_append_right _ (List.mem_cons_self _ _)
    · intro c hc hcCol
      have hmem := move_cross_member hfind hnc h hcross c hc hcCol
      rw [incShift_eq_ite, if_pos ⟨hcCol, Nat.zero_le c.order⟩] at hmem
      exact hmem

/-- **C10 (counterexample).** A Move of card 6 *within* column 20 with
`newPosition` omitted (card 6 sits at order 0, the default target)
succeeds, yet the store does not show the claimed prepend: card 7 keeps
order 1 instead of moving to 2, and the moved card itself is stored at
order 1 — not "placed at position 0" — because `save()` writes nothing
(both assigned paths equal the fetched values) and the step-2 increment
survives.  The response still reports card 6 at order 0. -/
theorem moveDefaultSameColumn_noIncrement :
    moveCardToColumn 1 6 { newColumnId := some 20, newPosition := none }
        dbFix = .ok (dbMoveNoOp, mkCard 6 20 0) ∧
    mkCard 7 20 1 ∈ dbMoveNoOp.cards ∧
    mkCard 7 20 2 ∉ dbMoveNoOp.cards ∧
    mkCard 6 20 1 ∈ dbMoveNoOp.cards ∧
    mkCard 6 20 0 ∉ dbMoveNoOp.cards :=
  ⟨by decide, by decide, by decide, by decide, by decide⟩

/-- **C10 (witness).** The omitted-`newPosition` equivalence at a
concrete call, and the prepend effect of moving card 3 into column 20
with `newPosition` omitted: card 3 is stored at order 0 of column 20
and card 6 moves from order 0 to order 1. -/
theorem move_default_newPosition_witness :
    (moveCardToColumn 1 6 { newColumnId := some 20, newPosition := none }
        dbFix =
      moveCardToColumn 1 6 { newColumnId := some 20, newPosition := some 0 }
        dbFix) ∧
    mkCard 3 20 0 = { (mkCard 3 10 2) with column := 20, order := 0 } ∧
    mkCard 3 20 0 ∈ dbC10w.cards ∧
    mkCard 6 20 1 ∈ dbC10w.cards :=
  ⟨move_default_newPosition.1 1 6 (some 20) dbFix,
    (move_default_newPosition.2 1 3 (some 20) dbFix dbC10w (mkCard 3 20 0)
      (mkCard 3 10 2) 20 (by decide) rfl (by decide)).1,
    ((move_default_newPosition.2 1 3 (some 20) dbFix dbC10w (mkCard 3 20 0)
      (mkCard 3 10 2) 20 (by decide) rfl (by decide)).2 (by decide)).1,
    ((move_default_newPosition.2 1 3 (some 20) dbFix dbC10w (mkCard 3 20 0)
      (mkCard 3 10 2) 20 (by decide) rfl (by decide)).2 (by decide)).2
      (mkCard 6 20 0) (by decide) (by decide)⟩

theorem reorder_foldl_frame {columnId : Nat} :
    ∀ (pairs : List (Nat × Nat)) (l : List Card) (i : Nat) (c : Card),
    l[i]? = some c → c.column ≠ columnId →
    (pairs.foldl (fun cs pr =>
      updateFirst (fun x => x.id == pr.1 && x.column == columnId)
        (fun x => { x with order := pr.2 }) cs) l)[i]? = some c := by
  intro pairs
  induction pairs with
  | nil => intro l i c hc _; simpa using hc
  | cons pr pairs ih =>
    intro l i c hc hcol
    rw [List.foldl_cons]
    exact ih _ i c (updateFirst_getElem?_of_neg hc (by simp [hcol])) hcol

theorem reorder_foldl_length {columnId : Nat} :
    ∀ (pairs : List (Nat × Nat)) (l : List Card),
    (pairs.foldl (fun cs pr =>
      updateFirst (fun x => x.id == pr.1 && x.column == columnId)
        (fun x => { x with order := pr.2 }) cs) l).length = l.length := by
  intro pairs
  induction pairs with
  | nil => intro l; rfl
  | cons pr pairs ih =>
    intro l
    rw [List.foldl_cons, ih, updateFirst_length]

/-- **C5.** Reorder (`updateCardsOrder`) writes each `{id, order}`
assignment through the filter `{_id: id, column: columnId}`: a card
whose `column` differs from `columnId` keeps its position and its whole
record unchanged — every field, including `order` and `column` — even
when its id appears in the assignment list, so Reorder can never move a
card into the column. -/
theorem updateCardsOrder_frame {userId columnId : Nat}
    {pairs : List (Nat × Nat)} {db db' : DB}
    (h : updateCardsOrder userId columnId (some pairs) db = .ok db') :
    db'.cards.length = db.cards.length ∧
    ∀ (i : Nat) (c : Card), db.cards[i]? = some c → c.column ≠ columnId →
      db'.cards[i]? = some c := by
  obtain ⟨column, pairs2, hfind, hown, hpairs, hcols, hcards⟩ :=
    updateCardsOrder_ok_elim h
  obtain rfl : pairs = pairs2 := by injection hpairs
  constructor
  · rw [hcards]
    exact reorder_foldl_length pairs db.cards
  · intro i c hc hcol
    rw [hcards]
    exact reorder_foldl_frame pairs db.cards i c hc hcol

/-- **C5 (witness).** Reordering column 20 with an assignment that names
card 1 — which lives in column 10 — succeeds and leaves card 1 (and the
whole store) unchanged. -/
theorem updateCardsOrder_frame_witness :
    dbFix.cards.length = dbFix.cards.length ∧
    dbFix.cards[0]? = some (mkCard 1 10 0) :=
  ⟨(@updateCardsOrder_frame 1 20 [(1, 7)] dbFix dbFix (by decide)).1,
    (@updateCardsOrder_frame 1 20 [(1, 7)] dbFix dbFix (by decide)).2
      0 (mkCard 1 10 0) (by decide) (by decide)⟩

theorem updateFirst_eq_of_find? {p : Card → Bool} {f : Card → Card}
    {l : List Card} {a : Card}
    (hfind : l.find? p = some a) (hfa : f a = a) :
    updateFirst p f l = l := by
  obtain ⟨l₁, l₂, hsplit, hno, _⟩ := find?_split hfind
  have hpa := find?_eq_true hfind
  rw [hsplit, updateFirst_append l₁ l₂ a hno hpa, hfa]

theorem find?_unique_id {l : List Card} {c : Card} {q : Card → Bool}
    (hnodup : (l.map Card.id).Nodup) (hc : c ∈ l) (hq : q c = true) :
    l.find? (fun x => x.id == c.id && q x) = some c := by
  induction l with
  | nil => simp at hc
  | cons a l ih =>
    rcases List.mem_cons.mp hc with rfl | hc'
    · rw [List.find?_cons_of_pos _ (by simp [hq])]
    · have hmm : c.id ∈ l.map Card.id := List.mem_map_of_mem _ hc'
      rw [List.map_cons, List.nodup_cons] at hnodup
      have hne : a.id ≠ c.id := fun hh => hnodup.1 (by rw [hh]; exact hmm)
      rw [List.find?_cons_of_neg _ (by simp [hne])]
      exact ih hnodup.2 hc'

/-- **C8.** Calling Reorder with the identity assignment — the list
giving every card of the column its current `order` — succeeds and
returns the store exactly as it was: every card's every field is
unchanged. -/
theorem updateCardsOrder_identity {userId columnId : Nat} {db : DB}
    {column : Column}
    (hnodup : (db.cards.map Card.id).Nodup)
    (hfind : db.columns.find? (fun c => c.id == columnId) = some column)
    (hown : column.owner = userId) :
    updateCardsOrder userId columnId
      (some ((db.cards.filter (fun c => c.column == columnId)).map
        (fun c => (c.id, c.order)))) db = .ok db := by
  have hfold : ∀ (cs : List Card),
      (∀ c ∈ cs, c ∈ db.cards ∧ c.column = columnId) →
      (cs.map (fun c => (c.id, c.order))).foldl (fun l pr =>
        updateFirst (fun c => c.id == pr.1 && c.column == columnId)
          (fun c => { c with order := pr.2 }) l) db.cards = db.cards := by
    intro cs
    induction cs with
    | nil => intro _; rfl
    | cons c cs ih =>
      intro hmem
      rw [List.map_cons, List.foldl_cons]
      have hc := hmem c (by simp)
      have hFind : db.cards.find?
          (fun x => x.id == c.id && x.column == columnId) = some c :=
        find?_unique_id hnodup hc.1 (by simp [hc.2])
      rw [updateFirst_eq_of_find? hFind rfl]
      exact ih (fun b hb => hmem b (by simp [hb]))
  have h1 : updateCardsOrder userId columnId
      (some ((db.cards.filter (fun c => c.column == columnId)).map
        (fun c => (c.id, c.order)))) db =
      match db.columns.find? (fun c => c.id == columnId) with
      | none => Except.error Err.notFound
      | some col =>
        if col.owner ≠ userId then Except.error Err.forbidden
        else Except.ok { db with cards :=
          ((db.cards.filter (fun c => c.column == columnId)).map
            (fun c => (c.id, c.order))).foldl (fun cs pr =>
            updateFirst (fun c => c.id == pr.1 && c.column == columnId)
              (fun c => { c with order := pr.2 }) cs) db.cards } := rfl
  rw [h1, hfind]
  have h2 := hfold (db.cards.filter (fun c => c.column == columnId))
    (fun c hc => ⟨List.mem_of_mem_filter hc,
      by simpa using List.of_mem_filter hc⟩)
  simp [hown, h2]

/-- **C8 (witness).** The identity reorder of column 20 of the fixture
returns the store unchanged. -/
theorem updateCardsOrder_identity_witness :
    updateCardsOrder 1 20 (some ((dbFix.cards.filter
      (fun c => c.column == 20)).map (fun c => (c.id, c.order)))) dbFix =
      .ok dbFix :=
  @updateCardsOrder_identity 1 20 dbFix colB (by decide) (by decide)
    (by decide)

/-- **C6 (counterexample).** The priority "urgent" is unrecognized, yet
`normalizePriority` returns "low" and `createCard` with that priority
succeeds, persisting priority "low" — no `BadRequest` is raised, the
value is silently coerced (the controller comments the gentle fallback
explicitly). -/
theorem unrecognizedPriority_coerced :
    normalizePriority (some "urgent") = "low" ∧
    (createCard 1 99
        { title := some "task", description := none, column := some 20,
          priority := some "urgent", dueDate := .absent,
          deadline := .absent } dbFix).map (fun r => r.2.priority) =
      .ok "low" :=
  ⟨by decide, by decide⟩

/-- **C6 (amended).** `normalizePriority` case-folds and trims the
incoming string; `null` and the empty string give the default "low";
the no-priority synonyms ("without", "without priority", "none")
collapse to "low"; "low"/"medium"/"high" are accepted as themselves;
and every other value is *silently coerced to "low"* (the result is
always one of the three valid priorities; nothing is rejected). -/
theorem normalizePriority_spec (p : String) :
    normalizePriority none = "low" ∧
    (p = "" → normalizePriority (some p) = "low") ∧
    (strToLower (strTrim p) = "without" ∨
      strToLower (strTrim p) = "without priority" ∨
      strToLower (strTrim p) = "none" →
      normalizePriority (some p) = "low") ∧
    (p ≠ "" →
      (strToLower (strTrim p) = "low" ∨ strToLower (strTrim p) = "medium" ∨
        strToLower (strTrim p) = "high") →
      normalizePriority (some p) = strToLower (strTrim p)) ∧
    (normalizePriority (some p) = "low" ∨
      normalizePriority (some p) = "medium" ∨
      normalizePriority (some p) = "high") ∧
    (¬(strToLower (strTrim p) = "without" ∨
        strToLower (strTrim p) = "without priority" ∨
        strToLower (strTrim p) = "none" ∨
        strToLower (strTrim p) = "low" ∨
        strToLower (strTrim p) = "medium" ∨
        strToLower (strTrim p) = "high") →
      normalizePriority (some p) = "low") := by
  have hval : ∀ (q : String), q ≠ "" → normalizePriority (some q) =
      (if strToLower (strTrim q) = "without" ∨
          strToLower (strTrim q) = "without priority" ∨
          strToLower (strTrim q) = "none" then "low"
       else if strToLower (strTrim q) = "low" ∨
          strToLower (strTrim q) = "medium" ∨
          strToLower (strTrim q) = "high" then strToLower (strTrim q)
       else "low") := by
    intro q hq
    simp only [normalizePriority, if_neg hq]
  refine ⟨rfl, fun h => by simp [normalizePriority, h], ?_, ?_, ?_, ?_⟩
  · intro h
    by_cases hp : p = ""
    · simp [normalizePriority, hp]
    · rw [hval p hp, if_pos h]
  · intro hp h
    have hnot : ¬(strToLower (strTrim p) = "without" ∨
        strToLower (strTrim p) = "without priority" ∨
        strToLower (strTrim p) = "none") := by
      rcases h with h1 | h1 | h1 <;> rw [h1] <;> decide
    rw [hval p hp, if_neg hnot, if_pos h]
  · by_cases hp : p = ""
    · exact Or.inl (by simp [normalizePriority, hp])
    · rw [hval p hp]
      by_cases h1 : strToLower (strTrim p) = "without" ∨
          strToLower (strTrim p) = "without priority" ∨
          strToLower (strTrim p) = "none"
      · rw [if_pos h1]; exact Or.inl rfl
      · rw [if_neg h1]
        by_cases h2 : strToLower (strTrim p) = "low" ∨
            strToLower (strTrim p) = "medium" ∨
            strToLower (strTrim p) = "high"
        · rw [if_pos h2]
          rcases h2 with h3 | h3 | h3
          · exact Or.inl h3
          · exact Or.inr (Or.inl h3)
          · exact Or.inr (Or.inr h3)
        · rw [if_neg h2]; exact Or.inl rfl
  · intro h
    by_cases hp : p = ""
    · simp [normalizePriority, hp]
    · rw [hval p hp, if_neg (by tauto), if_neg (by tauto)]

/-- **C6 (witness).** The amended normalization applied to " HIGH ":
trimmed and lower-cased to "high" and accepted as itself. -/
theorem normalizePriority_spec_witness :
    normalizePriority (some " HIGH ") = strToLower (strTrim " HIGH ") :=
  (normalizePriority_spec " HIGH ").2.2.2.1 (by decide)
    (Or.inr (Or.inr (by decide)))

/-- **C7.** Each of the four ordering operations invoked on an existing
resource by a caller who does not own it — for Move, who does not own
the card or does not own the destination column — returns `Forbidden`,
and since the ownership check precedes every write, the stored state
after the call (`DB.after`, the HTTP layer keeping the pre-state on a
thrown error) is exactly the state before it. -/
theorem nonOwner_forbidden :
    (∀ (userId newId : Nat) (body : CreateBody) (db : DB) (t : String)
      (columnId : Nat) (col : Column) (due : Option Int),
      body.title = some t → t ≠ "" → body.column = some columnId →
      normalizeDueDate body.dueDate body.deadline = .ok due →
      db.columns.find? (fun c => c.id == columnId) = some col →
      col.owner ≠ userId →
      createCard userId newId body db = .error .forbidden ∧
      db.after ((createCard userId newId body db).map Prod.fst) = db) ∧
    (∀ (userId cardId : Nat) (db : DB) (card : Card),
      db.cards.find? (fun c => c.id == cardId) = some card →
      card.owner ≠ userId →
      deleteCard userId cardId db = .error .forbidden ∧
      db.after (deleteCard userId cardId db) = db) ∧
    (∀ (userId columnId : Nat) (cardOrders : Option (List (Nat × Nat)))
      (db : DB) (column : Column),
      db.columns.find? (fun c => c.id == columnId) = some column →
      column.owner ≠ userId →
      updateCardsOrder userId columnId cardOrders db = .error .forbidden ∧
      db.after (updateCardsOrder userId columnId cardOrders db) = db) ∧
    (∀ (userId cardId : Nat) (body : MoveBody) (db : DB) (card : Card),
      db.cards.find? (fun c => c.id == cardId) = some card →
      card.owner ≠ userId →
      moveCardToColumn userId cardId body db = .error .forbidden ∧
      db.after ((moveCardToColumn userId cardId body db).map Prod.fst) =
        db) ∧
    (∀ (userId cardId : Nat) (body : MoveBody) (db : DB) (card : Card)
      (newColumnId : Nat) (dcol : Column),
      db.cards.find? (fun c => c.id == cardId) = some card →
      card.owner = userId →
      body.newColumnId = some newColumnId →
      db.columns.find? (fun c => c.id == newColumnId) = some dcol →
      dcol.owner ≠ userId →
      moveCardToColumn userId cardId body db = .error .forbidden ∧
      db.after ((moveCardToColumn userId cardId body db).map Prod.fst) =
        db) := by
  refine ⟨?_, ?_, ?_, ?_, ?_⟩
  · intro userId newId body db t columnId col due htitle ht hcolumn hdue
      hfind hown
    have herr : createCard userId newId body db = .error .forbidden := by
      unfold createCard
      rw [hdue, htitle, hcolumn]
      simp only [ht, if_false, reduceIte]
      rw [hfind]
      simp [hown]
    exact ⟨herr, by rw [herr]; rfl⟩
  · intro userId cardId db card hfind hown
    have herr : deleteCard userId cardId db = .error .forbidden := by
      unfold deleteCard
      rw [hfind]
      simp [hown]
    exact ⟨herr, by rw [herr]; rfl⟩
  · intro userId columnId cardOrders db column hfind hown
    have herr : updateCardsOrder userId columnId cardOrders db =
        .error .forbidden := by
      unfold updateCardsOrder
      rw [hfind]
      simp [hown]
    exact ⟨herr, by rw [herr]; rfl⟩
  · intro userId cardId body db card hfind hown
    have herr : moveCardToColumn userId cardId body db =
        .error .forbidden := by
      unfold moveCardToColumn
      rw [hfind]
      simp [hown]
    exact ⟨herr, by rw [herr]; rfl⟩
  · intro userId cardId body db card newColumnId dcol hfind hown hbody
      hcol hdown
    have herr : moveCardToColumn userId cardId body db =
        .error .forbidden := by
      unfold moveCardToColumn
      rw [hfind, hbody]
      simp [hown, hcol, hdown]
    exact ⟨herr, by rw [herr]; rfl⟩

/-- **C7 (witness).** Caller 1 against user 2's resources in the
concrete fixture: creating into column 30, deleting card 9, reordering
column 30, moving card 9, and moving own card 1 into column 30 all
return `Forbidden` and leave the store untouched. -/
theorem nonOwner_forbidden_witness :
    (createCard 1 99 (simpleBody 30) dbC7 = .error .forbidden ∧
      dbC7.after ((createCard 1 99 (simpleBody 30) dbC7).map Prod.fst) =
        dbC7) ∧
    (deleteCard 1 9 dbC7 = .error .forbidden ∧
      dbC7.after (deleteCard 1 9 dbC7) = dbC7) ∧
    (updateCardsOrder 1 30 (some []) dbC7 = .error .forbidden ∧
      dbC7.after (updateCardsOrder 1 30 (some []) dbC7) = dbC7) ∧
    (moveCardToColumn 1 9 { newColumnId := some 10, newPosition := some 0 }
        dbC7 = .error .forbidden ∧
      dbC7.after ((moveCardToColumn 1 9
        { newColumnId := some 10, newPosition := some 0 } dbC7).map
          Prod.fst) = dbC7) ∧
    (moveCardToColumn 1 1 { newColumnId := some 30, newPosition := some 0 }
        dbC7 = .error .forbidden ∧
      dbC7.after ((moveCardToColumn 1 1
        { newColumnId := some 30, newPosition := some 0 } dbC7).map
          Prod.fst) = dbC7) :=
  ⟨nonOwner_forbidden.1 1 99 (simpleBody 30) dbC7 "task" 30 colC none rfl
      (by decide) rfl (by decide) (by decide) (by decide),
    nonOwner_forbidden.2.1 1 9 dbC7 card9 (by decide) (by decide),
    nonOwner_forbidden.2.2.1 1 30 (some []) dbC7 colC (by decide)
      (by decide),
    nonOwner_forbidden.2.2.2.1 1 9
      { newColumnId := some 10, newPosition := some 0 } dbC7 card9
      (by decide) (by decide),
    nonOwner_forbidden.2.2.2.2 1 1
      { newColumnId := some 30, newPosition := some 0 } dbC7
      (mkCard 1 10 0) 30 colC (by decide) (by decide) rfl (by decide)
      (by decide)⟩

/-- **C9.** For every successful `updateCard` by the card's owner, only
`priority` can change, and only when the request body carries a
`priority` key: the stored card keeps its title, description, due date,
column, order, owner and id even when the body supplies new values for
title, description or due date (the update loop tests
`hasOwnProperty(body, "priority")` on every iteration of the allowed
field list, so no other field is ever written); without a priority key
nothing changes at all, and only that card's slot is written. -/
theorem updateCard_priority_only {userId cardId : Nat} {body : UpdateBody}
    {db db' : DB} {card' card : Card}
    (hfind : db.cards.find? (fun c => c.id == cardId) = some card)
    (h : updateCard userId cardId body db = .ok (db', card')) :
    card'.id = card.id ∧ card'.title = card.title ∧
    card'.description = card.description ∧ card'.dueDate = card.dueDate ∧
    card'.column = card.column ∧ card'.order = card.order ∧
    card'.owner = card.owner ∧
    (body.priorityPresent = true →
      card'.priority = normalizePriority body.priority) ∧
    (body.priorityPresent = false → card' = card ∧ db'.cards = db.cards) ∧
    db'.columns = db.columns ∧
    (∃ l₁ l₂, db.cards = l₁ ++ card :: l₂ ∧
      db'.cards = l₁ ++ card' :: l₂) := by
  obtain ⟨card2, due, hdue, hfind2, hown, hcard', hcols, hcards⟩ :=
    updateCard_ok_elim h
  rw [hfind] at hfind2
  obtain rfl : card = card2 := by injection hfind2
  obtain ⟨l₁, l₂, hsplit, hno, _⟩ := find?_split hfind
  have hpid := find?_eq_true hfind
  have hufirst : db'.cards = l₁ ++ card' :: l₂ := by
    rw [hcards, hsplit]
    exact updateFirst_append l₁ l₂ card hno hpid
  by_cases hpp : body.priorityPresent = true
  · have hc' : card' =
        { card with priority := normalizePriority body.priority } := by
      rw [hcard', if_pos hpp]
    subst hc'
    refine ⟨rfl, rfl, rfl, rfl, rfl, rfl, rfl, fun _ => rfl, ?_, hcols,
      l₁, l₂, hsplit, hufirst⟩
    intro hcontra
    rw [hpp] at hcontra
    exact absurd hcontra (by simp)
  · have hppf : body.priorityPresent = false := by
      cases hb : body.priorityPresent
      · rfl
      · exact absurd hb hpp
    have hc' : card' = card := by rw [hcard', if_neg hpp]
    subst hc'
    refine ⟨rfl, rfl, rfl, rfl, rfl, rfl, rfl, fun hcontra => ?_,
      fun _ => ⟨rfl, by rw [hufirst, hsplit]⟩, hcols,
      l₁, l₂, hsplit, hufirst⟩
    exact absurd hcontra hpp

/-- **C9 (witness).** Updating card 1 with a body that supplies a new
title ("XX"), description ("YY") and priority (" Medium "): the stored
card keeps title "t", description "" and order 0, and only the priority
becomes "medium". -/
theorem updateCard_priority_only_witness :
    cardC9.title = (mkCard 1 10 0).title ∧
    cardC9.description = (mkCard 1 10 0).description ∧
    cardC9.order = (mkCard 1 10 0).order ∧
    cardC9.priority = normalizePriority (some " Medium ") :=
  ⟨(@updateCard_priority_only 1 1 bodyC9 dbFix dbC9 cardC9 (mkCard 1 10 0)
      (by decide) (by decide)).2.1,
    (@updateCard_priority_only 1 1 bodyC9 dbFix dbC9 cardC9 (mkCard 1 10 0)
      (by decide) (by decide)).2.2.1,
    (@updateCard_priority_only 1 1 bodyC9 dbFix dbC9 cardC9 (mkCard 1 10 0)
      (by decide) (by decide)).2.2.2.2.2.1,
    (@updateCard_priority_only 1 1 bodyC9 dbFix dbC9 cardC9 (mkCard 1 10 0)
      (by decide) (by decide)).2.2.2.2.2.2.2.1 rfl⟩

end TaskPro
